import Mathlib

/-!
Verification of the GP14-26 AI service core against its specification.

The development shallowly embeds the Python sources:

* `VideoStream` — apps/ai/src/api/grpc/servicers/video_stream_servicer.py
  (the bidirectional StreamFrames pipeline: throttling, decode, processing,
  response assembly, per-camera metrics).
* `Lifespan` — apps/ai/src/api/lifespan/manager.py (shutdown ordering).
* `Health` — apps/ai/src/api/lifespan/health_registry.py (status aggregation).
* `Registry` — apps/ai/src/api/lifespan/registry.py (dependency validation,
  cycle detection by depth-first traversal).
* `FaceRec` — apps/ai/src/services/ml/Face_Recognition_Service.py
  (image-bound validation after decode-and-resize, the per-instance frame
  counter of process_frame).

Conventions: Python floats and int timestamps are embedded as rationals
(all constants involved are exactly representable); byte strings are lists
of naturals; external effects (cv2 decoding, the MTCNN detector, the FaceNet
embedder) are oracle parameters; wall-clock readings (time.time based fields
such as the FPS window, log timers and Timer durations) are outside the
embedding and the corresponding record fields are omitted.
-/

namespace Spec2Proof

/-- Association-list lookup, first occurrence wins — embeds Python
dict.get for the insertion-ordered dicts used by the servicer. -/
def lookupA {α : Type} (m : List (String × α)) (k : String) : Option α :=
  match m with
  | [] => none
  | (k', v) :: rest => if k' = k then some v else lookupA rest k

/-- Association-list assignment — embeds Python dict item assignment:
replace the existing binding, else append a new one (insertion order kept). -/
def updateA {α : Type} (m : List (String × α)) (k : String) (v : α) :
    List (String × α) :=
  match m with
  | [] => [(k, v)]
  | (k', v') :: rest =>
      if k' = k then (k, v) :: rest else (k', v') :: updateA rest k v

/-- Apply a function to the value bound to a key that is known to be
present (Python mutating access to an existing dict entry). -/
def adjustA {α : Type} (m : List (String × α)) (k : String) (f : α → α) :
    List (String × α) :=
  match m with
  | [] => []
  | (k', v') :: rest =>
      if k' = k then (k', f v') :: rest else (k', v') :: adjustA rest k f

namespace VideoStream

/-- VideoFrameRequest of the stream contract: the fields the servicer
reads from each inbound message. -/
structure VideoFrameRequest where
  camera_id : String
  frame_id : Nat
  timestamp_ms : ℚ
  image_jpeg : List Nat
deriving DecidableEq

/-- FaceBox proto message (x, y, w, h). -/
structure FaceBox where
  x : ℚ
  y : ℚ
  w : ℚ
  h : ℚ
deriving DecidableEq

/-- FaceQuality proto message. -/
structure FaceQuality where
  overall_score : ℚ
  sharpness : ℚ
  brightness : ℚ
  face_size_pixels : Nat
deriving DecidableEq

/-- FaceResult proto message built by the servicer for each mapped face. -/
structure FaceResult where
  box : FaceBox
  embedding : List ℚ
  confidence : ℚ
  face_id : Nat
  quality : Option FaceQuality
deriving DecidableEq

/-- PerformanceMetrics proto message. -/
structure PerformanceMetrics where
  detection_ms : ℚ
  embedding_ms : ℚ
  preprocessing_ms : ℚ
  total_ms : ℚ
  image_width : Nat
  image_height : Nat
  faces_detected : Nat
deriving DecidableEq

/-- VideoFrameResponse: the proto message the servicer emits. The wire
schema has no error-message field (the servicer source notes this), so an
error response carries only the fields below. -/
structure VideoFrameResponse where
  camera_id : String
  frame_id : Nat
  processing_time_ms : ℚ
  total_faces_detected : Nat
  metrics : Option PerformanceMetrics
  faces : List FaceResult
deriving DecidableEq

/-- The duck-typed face dict produced by FaceRecognitionService and read
back by the servicer; absent dict keys are `none`. The service emits bbox
as a 4-tuple of floats, embedded as a rational list (the dict-shaped bbox
branch and the numpy/torch embedding branches of the converters are dead
for this producer and are not modelled). -/
structure FaceDict where
  bbox : Option (List ℚ)
  embedding : Option (List ℚ)
  confidence : Option ℚ
  face_id : Option Nat
  quality : Option FaceQuality
deriving DecidableEq

/-- Result dict of FaceRecognitionService.process_frame as consumed by the
servicer: result.get("faces", []), result.get("time_ms", 0.0) and
result.get("metrics", \x7b\x7d) (`none` stands for an empty metrics dict). -/
structure ProcResult where
  faces : List FaceDict
  time_ms : ℚ
  metrics : Option PerformanceMetrics
deriving DecidableEq

/-- CameraMetrics dataclass: the per-camera counters of one streaming
call. The wall-clock fields (start_time, last_log_time and the
frame_times deque feeding get_fps) are omitted: they sample time.time(). -/
structure CameraMetrics where
  camera_id : String
  frames_processed : Nat := 0
  frames_dropped : Nat := 0
  faces_detected : Nat := 0
  total_processing_ms : ℚ := 0
deriving DecidableEq

/-- CameraMetrics.add_frame: update counters for a processed frame. -/
def CameraMetrics.add_frame (m : CameraMetrics) (processing_ms : ℚ)
    (face_count : Nat) : CameraMetrics :=
  { m with
    frames_processed := m.frames_processed + 1
    faces_detected := m.faces_detected + face_count
    total_processing_ms := m.total_processing_ms + processing_ms }

/-- Servicer instance state: the per-camera last-process-time dict
(self._last_process_time) — note it lives on the servicer object, not
inside one call. -/
structure VideoStreamState where
  last_process_time : List (String × ℚ)
deriving DecidableEq

/-- The per-call camera_metrics dict of StreamFrames. -/
abbrev CameraMetricsMap := List (String × CameraMetrics)

/-- Extract (x, y, w, h) from a 4-element bbox; anything else is invalid
(embeds the tuple/list branch of _extract_bbox). -/
def extract_bbox (bbox : List ℚ) : Option (ℚ × ℚ × ℚ × ℚ) :=
  match bbox with
  | [x, y, w, h] => some (x, y, w, h)
  | _ => none

/-- _map_face_to_proto: map one face dict to a FaceResult, dropping faces
with falsy/missing bbox or embedding. -/
def map_face_to_proto (f : FaceDict) : Option FaceResult :=
  match f.bbox with
  | none => none
  | some b =>
      if b = [] then none
      else
        match extract_bbox b with
        | none => none
        | some (x, y, w, h) =>
            match f.embedding with
            | none => none
            | some e =>
                if e = [] then none
                else
                  some
                    { box := { x := x, y := y, w := w, h := h }
                      embedding := e
                      confidence := f.confidence.getD 1
                      face_id := f.face_id.getD 0
                      quality := f.quality }

/-- _build_response: assemble the full VideoFrameResponse from a service
result dict. -/
def build_response (result : ProcResult) (camera_id : String)
    (frame_id : Nat) : VideoFrameResponse :=
  { camera_id := camera_id
    frame_id := frame_id
    processing_time_ms := result.time_ms
    total_faces_detected := result.faces.length
    metrics := result.metrics
    faces := result.faces.filterMap map_face_to_proto }

/-- _create_error_response. The error_message argument is accepted but the
proto has no field for it (the source carries a comment to that effect), so
it does not appear in the constructed response. -/
def create_error_response (camera_id : String) (frame_id : Nat)
    (_error_message : String) : VideoFrameResponse :=
  { camera_id := camera_id
    frame_id := frame_id
    processing_time_ms := 0
    total_faces_detected := 0
    metrics := none
    faces := [] }

/-- _create_throttled_response. -/
def create_throttled_response (camera_id : String) (frame_id : Nat) :
    VideoFrameResponse :=
  { camera_id := camera_id
    frame_id := frame_id
    processing_time_ms := 0
    total_faces_detected := 0
    metrics := none
    faces := [] }

/-- _decode_jpeg: reject byte strings shorter than 100 bytes, then defer
to the external cv2 decoder (the oracle also answers `none` when cv2
returns no image or an empty one). -/
def decode_jpeg {Img : Type} (decode : List Nat → Option Img)
    (jpeg_bytes : List Nat) : Option Img :=
  if jpeg_bytes.length < 100 then none else decode jpeg_bytes

/-- _should_process_frame: throttle check against the servicer-level
last-process-time dict; a processed decision records the frame timestamp. -/
def should_process_frame (min_frame_interval_ms : ℚ)
    (st : VideoStreamState) (camera_id : String) (timestamp_ms : ℚ) :
    Bool × VideoStreamState :=
  let last := (lookupA st.last_process_time camera_id).getD 0
  if timestamp_ms - last < min_frame_interval_ms then (false, st)
  else (true, ⟨updateA st.last_process_time camera_id timestamp_ms⟩)

/-- Normalization of the request camera id performed by StreamFrames:
an empty camera_id becomes "unknown". -/
def normalizeCameraId (s : String) : String :=
  if s = "" then "unknown" else s

/-- Lazy creation of the per-camera metrics record on first frame. -/
def ensureCamera (cm : CameraMetricsMap) (camera_id : String) :
    CameraMetricsMap :=
  match lookupA cm camera_id with
  | some _ => cm
  | none => cm ++ [(camera_id, { camera_id := camera_id })]

/-- One iteration of the StreamFrames loop body for an active call:
normalize the camera id, ensure metrics, throttle-check, decode, process,
assemble the response and update metrics. `decode` is the cv2 oracle and
`process` the face service (an `Except.error` is a raised exception). -/
def streamStep {Img : Type} (min_frame_interval_ms : ℚ)
    (decode : List Nat → Option Img)
    (process : Img → String → Except String ProcResult)
    (st : VideoStreamState) (cm : CameraMetricsMap)
    (req : VideoFrameRequest) :
    VideoStreamState × CameraMetricsMap × VideoFrameResponse :=
  let camera_id := normalizeCameraId req.camera_id
  let cm := ensureCamera cm camera_id
  match should_process_frame min_frame_interval_ms st camera_id
      req.timestamp_ms with
  | (false, st') =>
      (st',
       adjustA cm camera_id
         (fun m => { m with frames_dropped := m.frames_dropped + 1 }),
       create_throttled_response camera_id req.frame_id)
  | (true, st') =>
      match decode_jpeg decode req.image_jpeg with
      | none =>
          (st', cm,
           create_error_response camera_id req.frame_id
             "Failed to decode JPEG frame")
      | some frame =>
          match process frame camera_id with
          | Except.error e =>
              (st', cm,
               create_error_response camera_id req.frame_id
                 ("Processing failed: " ++ e))
          | Except.ok result =>
              let resp := build_response result camera_id req.frame_id
              (st',
               adjustA cm camera_id
                 (fun m => m.add_frame resp.processing_time_ms
                   resp.faces.length),
               resp)

/-- StreamFrames over a request stream that stays active to the end:
fold streamStep over the inbound frames, collecting the emitted responses,
the final servicer state and the final per-call metrics map. -/
def streamFrames {Img : Type} (min_frame_interval_ms : ℚ)
    (decode : List Nat → Option Img)
    (process : Img → String → Except String ProcResult)
    (st : VideoStreamState) (cm : CameraMetricsMap) :
    List VideoFrameRequest →
      List VideoFrameResponse × VideoStreamState × CameraMetricsMap
  | [] => ([], st, cm)
  | req :: rest =>
      let out := streamStep min_frame_interval_ms decode process st cm req
      let rec_out :=
        streamFrames min_frame_interval_ms decode process out.1 out.2.1 rest
      (out.2.2 :: rec_out.1, rec_out.2.1, rec_out.2.2)

/-- Outcome classification of one loop iteration (a pure function of the
servicer state and the request; the metrics map does not influence it). -/
inductive StepOutcome where
  | throttled
  | decodeFailed
  | processFailed
  | processed
deriving DecidableEq

/-- Classify what streamStep does with a request. -/
def classifyStep {Img : Type} (min_frame_interval_ms : ℚ)
    (decode : List Nat → Option Img)
    (process : Img → String → Except String ProcResult)
    (st : VideoStreamState) (req : VideoFrameRequest) : StepOutcome :=
  match should_process_frame min_frame_interval_ms st
      (normalizeCameraId req.camera_id) req.timestamp_ms with
  | (false, _) => StepOutcome.throttled
  | (true, _) =>
      match decode_jpeg decode req.image_jpeg with
      | none => StepOutcome.decodeFailed
      | some frame =>
          match process frame (normalizeCameraId req.camera_id) with
          | Except.error _ => StepOutcome.processFailed
          | Except.ok _ => StepOutcome.processed

/-- Evolution of the servicer throttle state over one request (equal to
the state component of streamStep). -/
def nextState (min_frame_interval_ms : ℚ) (st : VideoStreamState)
    (req : VideoFrameRequest) : VideoStreamState :=
  (should_process_frame min_frame_interval_ms st
    (normalizeCameraId req.camera_id) req.timestamp_ms).2

/-- Number of frames of a run that yield error responses (decode failures
and processing exceptions) for a given camera. -/
def errorCount {Img : Type} (min_frame_interval_ms : ℚ)
    (decode : List Nat → Option Img)
    (process : Img → String → Except String ProcResult)
    (st : VideoStreamState) : List VideoFrameRequest → String → Nat
  | [], _ => 0
  | req :: rest, cam =>
      (if normalizeCameraId req.camera_id = cam ∧
          (classifyStep min_frame_interval_ms decode process st req =
              StepOutcome.decodeFailed ∨
            classifyStep min_frame_interval_ms decode process st req =
              StepOutcome.processFailed)
        then 1 else 0) +
      errorCount min_frame_interval_ms decode process
        (nextState min_frame_interval_ms st req) rest cam

/-- Number of inbound frames addressed to a camera (after camera-id
normalization). -/
def recvCount : List VideoFrameRequest → String → Nat
  | [], _ => 0
  | req :: rest, cam =>
      (if normalizeCameraId req.camera_id = cam then 1 else 0) +
        recvCount rest cam

/-- frames_processed + frames_dropped of a camera in a metrics map
(0 when the camera has no record). -/
def bucketCount (cm : CameraMetricsMap) (cam : String) : Nat :=
  match lookupA cm cam with
  | none => 0
  | some m => m.frames_processed + m.frames_dropped

/-- A trivially succeeding cv2 oracle for concrete runs. -/
def constDecode : List Nat → Option Unit := fun _ => some ()

/-- A face-service oracle returning no faces and zero reported time. -/
def emptyProcess : Unit → String → Except String ProcResult :=
  fun _ _ => Except.ok { faces := [], time_ms := 0, metrics := none }

/-- A face-service oracle returning no faces but a nonzero reported
processing time (distinguishes a processed frame from a throttled one). -/
def timedProcess : Unit → String → Except String ProcResult :=
  fun _ _ => Except.ok { faces := [], time_ms := 5, metrics := none }

/-- The three-frame scenario of the specification: camera "cam1",
timestamps 0 ms, 10 ms, 50 ms, payloads long enough to decode. -/
def scenarioRequests : List VideoFrameRequest :=
  [ { camera_id := "cam1", frame_id := 1, timestamp_ms := 0,
      image_jpeg := List.replicate 100 0 },
    { camera_id := "cam1", frame_id := 2, timestamp_ms := 10,
      image_jpeg := List.replicate 100 0 },
    { camera_id := "cam1", frame_id := 3, timestamp_ms := 50,
      image_jpeg := List.replicate 100 0 } ]

/-- The scenario run with min_frame_interval_ms = 33 on a fresh servicer. -/
def scenarioRun :
    List VideoFrameResponse × VideoStreamState × CameraMetricsMap :=
  streamFrames 33 constDecode emptyProcess ⟨[]⟩ [] scenarioRequests

/-- The decode-and-process tail of the loop body: what a frame that passed
the throttle check is answered with (decode failure and processing
exception both collapse to the message-free error response). -/
def decodeProcessResponse {Img : Type} (decode : List Nat → Option Img)
    (process : Img → String → Except String ProcResult)
    (camera_id : String) (frame_id : Nat) (jpeg : List Nat) :
    VideoFrameResponse :=
  match decode_jpeg decode jpeg with
  | none => create_error_response camera_id frame_id
      "Failed to decode JPEG frame"
  | some frame =>
      match process frame camera_id with
      | Except.error e =>
          create_error_response camera_id frame_id
            ("Processing failed: " ++ e)
      | Except.ok result => build_response result camera_id frame_id

/-- A frame that passes the throttle check (50 - 0 = 50 is not below 33)
but whose payload is empty, so JPEG decoding fails. -/
def badRequest : VideoFrameRequest :=
  { camera_id := "cam1", frame_id := 1, timestamp_ms := 50,
    image_jpeg := [] }

/-- A well-formed frame at 100 ms for camera "cam1". -/
def goodRequest : VideoFrameRequest :=
  { camera_id := "cam1", frame_id := 2, timestamp_ms := 100,
    image_jpeg := List.replicate 100 0 }

/-- A well-formed frame at 50 ms for camera "cam1" (processed on a fresh
servicer, throttled on a servicer that already processed goodRequest). -/
def laterRequest : VideoFrameRequest :=
  { camera_id := "cam1", frame_id := 1, timestamp_ms := 50,
    image_jpeg := List.replicate 100 0 }

/-- A sequence of StreamFrames calls on one servicer instance: every call
starts from an empty per-call camera_metrics dict, while the
last-process-time dict is carried over from call to call (it lives on the
servicer object). -/
def runCalls {Img : Type} (min_frame_interval_ms : ℚ)
    (decode : List Nat → Option Img)
    (process : Img → String → Except String ProcResult) :
    VideoStreamState → List (List VideoFrameRequest) →
      List (List VideoFrameResponse) × VideoStreamState
  | st, [] => ([], st)
  | st, reqs :: more =>
      let out := streamFrames min_frame_interval_ms decode process st [] reqs
      let rest := runCalls min_frame_interval_ms decode process out.2.1 more
      (out.1 :: rest.1, rest.2)

/-- The servicer throttle state after replaying a request list in order
(equal to the state component of streamFrames: only the throttle check of
_should_process_frame ever writes the last-process-time dict). -/
def runState (min_frame_interval_ms : ℚ) :
    VideoStreamState → List VideoFrameRequest → VideoStreamState
  | st, [] => st
  | st, req :: rest =>
      runState min_frame_interval_ms
        (nextState min_frame_interval_ms st req) rest

/-- Some frame of the request list, replayed in order from the given
servicer state, is addressed to the camera and passes the throttle check
of _should_process_frame. -/
def passedInCall (min_frame_interval_ms : ℚ) :
    VideoStreamState → List VideoFrameRequest → String → Prop
  | _, [], _ => False
  | st, req :: rest, cam =>
      (normalizeCameraId req.camera_id = cam ∧
        (should_process_frame min_frame_interval_ms st
            (normalizeCameraId req.camera_id) req.timestamp_ms).1 = true) ∨
      passedInCall min_frame_interval_ms
        (nextState min_frame_interval_ms st req) rest cam

/-- Some frame of some call of the sequence passes the throttle check for
the camera (the throttle state carries over from one call to the next,
while the metrics map of each call starts empty and does not influence
the throttle decision). -/
def passedInCalls (min_frame_interval_ms : ℚ) :
    VideoStreamState → List (List VideoFrameRequest) → String → Prop
  | _, [], _ => False
  | st, reqs :: more, cam =>
      passedInCall min_frame_interval_ms st reqs cam ∨
      passedInCalls min_frame_interval_ms
        (runState min_frame_interval_ms st reqs) more cam

end VideoStream

namespace Lifespan

/-- A lifecycle component as seen by shutdown_all: its name and whether
its shutdown() coroutine raises when awaited. -/
structure Component where
  name : String
  shutdownRaises : Bool
deriving DecidableEq

/-- What one shutdown attempt did. -/
structure ShutdownRecord where
  name : String
  succeeded : Bool
deriving DecidableEq

/-- Modelled from the spec: `_shutdown_component` is referenced by
LifespanManager.shutdown_all but its definition is not among the sources;
per the specification each component's shutdown() is wrapped individually,
with a raised exception logged and swallowed so it never propagates to the
caller (hence the result is always `Except.ok`). -/
def shutdown_component (c : Component) : Except String ShutdownRecord :=
  Except.ok { name := c.name, succeeded := !c.shutdownRaises }

/-- The shutdown loop body: await _shutdown_component for each component
in iteration order; an uncaught exception would abort the remaining
iterations (Except short-circuits exactly like a raised exception). -/
def shutdown_loop :
    List Component → List ShutdownRecord →
      Except String (List ShutdownRecord)
  | [], acc => Except.ok acc
  | c :: rest, acc =>
      match shutdown_component c with
      | Except.error e => Except.error e
      | Except.ok r => shutdown_loop rest (acc ++ [r])

/-- LifespanManager.shutdown_all: iterate over reversed(self.components)
(self.components is the flattened instantiation order, appended batch by
batch during startup) and shut each component down. -/
def shutdown_all (components : List Component) :
    Except String (List ShutdownRecord) :=
  shutdown_loop components.reverse []

end Lifespan

namespace Health

/-- HealthStatus enum of the health registry. -/
inductive HealthStatus where
  | healthy
  | degraded
  | unhealthy
  | unknown
deriving DecidableEq

/-- The registry's component dict reduced to the data aggregation reads:
component name mapped to its current status (the remaining ComponentHealth
fields — timestamps, failure counters, metadata, error message — do not
influence get_overall_status). -/
abbrev HealthComponents := List (String × HealthStatus)

/-- HealthRegistry.get_overall_status: Unknown when no components are
registered; else Unhealthy if any component is unhealthy; else Degraded if
any is degraded; else Healthy if all are healthy; else Unknown. -/
def get_overall_status (components : HealthComponents) : HealthStatus :=
  if components.isEmpty then HealthStatus.unknown
  else
    let statuses := components.map Prod.snd
    if statuses.any (fun s => s = HealthStatus.unhealthy) then
      HealthStatus.unhealthy
    else if statuses.any (fun s => s = HealthStatus.degraded) then
      HealthStatus.degraded
    else if statuses.all (fun s => s = HealthStatus.healthy) then
      HealthStatus.healthy
    else HealthStatus.unknown

end Health

namespace FaceRec

/-- ImageValidationLimits dataclass with its class-level defaults. -/
structure ImageValidationLimits where
  MAX_DIMENSION : Nat := 4096
  MIN_DIMENSION : Nat := 40
  MAX_PIXELS : Nat := 4096 * 4096
  DEFAULT_RESIZE_DIMENSION : Nat := 1280
deriving DecidableEq

/-- Floor of a rational, computed on the numerator/denominator pair so
that concrete instances evaluate. -/
def ratFloor (q : ℚ) : ℤ := q.num / q.den

/-- Python round(): round half to even (banker's rounding). -/
def pyRound (q : ℚ) : ℤ :=
  let f := ratFloor q
  if q - f < 1/2 then f
  else if 1/2 < q - f then f + 1
  else if f % 2 = 0 then f else f + 1

/-- The (height, width) result of _decode_and_resize_image on an image
that decoded to the given dimensions: no resize when max_dimension is
non-positive or the longest side already fits, otherwise scale both sides
by max_dimension / max(h, w) with Python rounding, at least 1 pixel. -/
def decode_and_resize_dims (h w : Nat) (max_dimension : ℤ) : Nat × Nat :=
  if max_dimension ≤ 0 ∨ ((max h w : Nat) : ℤ) ≤ max_dimension then (h, w)
  else
    let scale : ℚ := (max_dimension : ℚ) / ((max h w : Nat) : ℚ)
    let new_w : Nat := Nat.max 1 (pyRound (w * scale)).toNat
    let new_h : Nat := Nat.max 1 (pyRound (h * scale)).toNat
    (new_h, new_w)

/-- _validate_image on an image of the given dimensions: reject images
with too many pixels, then images with a side below the minimum
(both raise InvalidImageException, here the error branch). -/
def validate_image (v : ImageValidationLimits) (h w : Nat) :
    Except String Unit :=
  if h * w > v.MAX_PIXELS then Except.error "Image too large"
  else if h < v.MIN_DIMENSION ∨ w < v.MIN_DIMENSION then
    Except.error "Image too small"
  else Except.ok ()

/-- Resolution of the max_image_dimension argument as performed at the
call sites: `max_image_dimension or DEFAULT_RESIZE_DIMENSION`, where both
None and 0 are falsy. -/
def resolve_max_dimension (v : ImageValidationLimits)
    (max_image_dimension : Option ℤ) : ℤ :=
  match max_image_dimension with
  | none => v.DEFAULT_RESIZE_DIMENSION
  | some d => if d = 0 then (v.DEFAULT_RESIZE_DIMENSION : ℤ) else d

/-- The decode-resize-validate prefix shared by detect_faces and
extract_embeddings, applied to an image whose decoded size is h by w:
_decode_and_resize_image followed by _validate_image. -/
def decode_validate (v : ImageValidationLimits) (h w : Nat)
    (max_image_dimension : Option ℤ) : Except String Unit :=
  validate_image v
    (decode_and_resize_dims h w
      (resolve_max_dimension v max_image_dimension)).1
    (decode_and_resize_dims h w
      (resolve_max_dimension v max_image_dimension)).2

/-- The image-bound check performed by detect_faces before detection. -/
def detect_faces_image_check (v : ImageValidationLimits) (h w : Nat)
    (max_image_dimension : Option ℤ) : Except String Unit :=
  decode_validate v h w max_image_dimension

/-- The image-bound check performed by extract_embeddings (the same two
calls as in detect_faces). -/
def extract_embeddings_image_check (v : ImageValidationLimits) (h w : Nat)
    (max_image_dimension : Option ℤ) : Except String Unit :=
  decode_validate v h w max_image_dimension

/-- FaceQuality block of a detected face. -/
structure FaceQuality where
  overall_score : ℚ
  sharpness : ℚ
  brightness : ℚ
  face_size_pixels : Nat
deriving DecidableEq

/-- DetectedFace as returned by the detector oracle (the crop is an
opaque image). -/
structure DetectedFace (Img : Type) where
  bbox : ℚ × ℚ × ℚ × ℚ
  confidence : ℚ
  quality : FaceQuality
  crop : Option Img

/-- The duck-typed face dict produced by the mapping helpers of
FaceRecognitionService (crop bytes omitted: include_crop is False on the
process_frame path). -/
structure ServiceFaceDict where
  bbox : ℚ × ℚ × ℚ × ℚ
  confidence : ℚ
  embedding : Option (List ℚ)
  face_id : Option Nat
  quality : FaceQuality
deriving DecidableEq

/-- _map_detected_face with include_crop = False: detection-only dict,
face_id preset to 0 ("will be set by caller"). -/
def map_detected_face {Img : Type} (face : DetectedFace Img) :
    ServiceFaceDict :=
  { bbox := face.bbox
    confidence := face.confidence
    embedding := none
    face_id := some 0
    quality := face.quality }

/-- _map_face_with_embedding with include_crop = False: the face_id key is
commented out in the source, so the dict has none until
_build_frame_response assigns it. -/
def map_face_with_embedding {Img : Type} (face : DetectedFace Img)
    (embedding : List ℚ) : ServiceFaceDict :=
  { bbox := face.bbox
    confidence := face.confidence
    embedding := some embedding
    face_id := none
    quality := face.quality }

/-- _extract_embeddings_batch: embed the non-null crops in one batch; with
no usable crop, return one 512-zero vector per face; pad a short batch
result with zero vectors up to the crop count. -/
def extract_embeddings_batch {Img : Type}
    (embed_batch : List Img → List (List ℚ))
    (detected_faces : List (DetectedFace Img)) : List (List ℚ) :=
  let crops := detected_faces.filterMap (fun f => f.crop)
  if crops.isEmpty then
    detected_faces.map (fun _ => List.replicate 512 0)
  else
    let embeddings := embed_batch crops
    embeddings ++
      List.replicate (crops.length - embeddings.length)
        (List.replicate 512 0)

/-- The process_frame result dict (the Timer-based time_ms and the
metrics sub-dict durations are wall-clock readings and are omitted). -/
structure FrameResult where
  success : Bool
  faces : List ServiceFaceDict
  frame_id : Nat
  camera_id : String
  image_width : Nat
  image_height : Nat
deriving DecidableEq

/-- Mutable FaceRecognitionService state touched by process_frame: the
instance-wide frame counter shared by all cameras. -/
structure ServiceState where
  frame_counter : Nat := 0
deriving DecidableEq

/-- _build_frame_response: assign sequential face_id values 0..n-1 and
assemble the result dict. -/
def build_frame_response (faces : List ServiceFaceDict) (frame_id : Nat)
    (camera_id : String) (image_width image_height : Nat) : FrameResult :=
  { success := true
    faces := faces.enum.map
      (fun p => { p.2 with face_id := some p.1 })
    frame_id := frame_id
    camera_id := camera_id
    image_width := image_width
    image_height := image_height }

/-- FaceRecognitionService.process_frame: bump the instance frame counter,
detect (oracle), optionally embed (oracle), and build the response carrying
the new counter value as frame_id. `shape` gives the frame's (h, w). -/
def process_frame {Img : Type} (detect : Img → List (DetectedFace Img))
    (embed_batch : List Img → List (List ℚ)) (shape : Img → Nat × Nat)
    (st : ServiceState) (frame : Img) (camera_id : String)
    (max_faces : Nat := 10) (skip_embedding : Bool := false) :
    FrameResult × ServiceState :=
  let st' : ServiceState := { frame_counter := st.frame_counter + 1 }
  let h := (shape frame).1
  let w := (shape frame).2
  let detected_faces := detect frame
  if detected_faces.isEmpty then
    (build_frame_response [] st'.frame_counter camera_id w h, st')
  else
    let detected_faces :=
      if max_faces ≠ 0 ∧ detected_faces.length > max_faces then
        detected_faces.take max_faces
      else detected_faces
    let faces :=
      if skip_embedding then detected_faces.map map_detected_face
      else
        (detected_faces.zip
          (extract_embeddings_batch embed_batch detected_faces)).map
          (fun p => map_face_with_embedding p.1 p.2)
    (build_frame_response faces st'.frame_counter camera_id w h, st')

/-- Repeated process_frame calls on one service instance (any mix of
frames and camera ids). -/
def run_process_frames {Img : Type}
    (detect : Img → List (DetectedFace Img))
    (embed_batch : List Img → List (List ℚ)) (shape : Img → Nat × Nat) :
    ServiceState → List (Img × String) →
      List FrameResult × ServiceState
  | st, [] => ([], st)
  | st, (frame, cam) :: rest =>
      let out := process_frame detect embed_batch shape st frame cam
      let more := run_process_frames detect embed_batch shape out.2 rest
      (out.1 :: more.1, more.2)

end FaceRec

namespace Registry

/-- The registry's component map restricted to what dependency validation
reads: registration order of (component name, depends_on list); names are
unique (register() skips duplicate names). -/
abbrev ComponentMap := List (String × List String)

/-- Dependency list of a component name (no outgoing edges for an
unregistered name). -/
def depsOf (cm : ComponentMap) (n : String) : List String :=
  (lookupA cm n).getD []

/-- The dependency-graph edge relation: a depends on b. -/
def Edge (cm : ComponentMap) (a b : String) : Prop := b ∈ depsOf cm a

/-- The reported cycle: path[path.index(dep):] + [dep], joined by arrows. -/
def cycleString (path : List String) (dep : String) : String :=
  String.intercalate " -> "
    ((path.dropWhile (fun x => x ≠ dep)) ++ [dep])

/-- The dep loop inside visit(): for each dependency, recurse when it is
unvisited (via the supplied recursion, which threads the visited set), and
report a cycle when it sits on the current recursion stack. -/
def visitDeps
    (visitF : String → List String → List String → List String →
      Except String (List String))
    (rec_stack path : List String) :
    List String → List String → Except String (List String)
  | [], visited => Except.ok visited
  | dep :: rest, visited =>
      if dep ∉ visited then
        match visitF dep visited rec_stack path with
        | Except.error e => Except.error e
        | Except.ok visited' => visitDeps visitF rec_stack path rest visited'
      else if dep ∈ rec_stack then
        Except.error ("Circular dependency detected: " ++
          cycleString path dep)
      else visitDeps visitF rec_stack path rest visited

/-- visit() of _check_circular_dependencies: mark the node visited, push
it on the recursion stack and path, and walk its dependencies. The fuel
counts recursion depth (Python would raise RecursionError when exceeded);
callers supply enough fuel for the registry size. -/
def visit (cm : ComponentMap) :
    Nat → String → List String → List String → List String →
      Except String (List String)
  | 0, _, _, _, _ => Except.error "recursion depth exceeded"
  | fuel + 1, node, visited, rec_stack, path =>
      visitDeps (visit cm fuel) (rec_stack ++ [node]) (path ++ [node])
        (depsOf cm node) (visited ++ [node])

/-- The top-level loop of _check_circular_dependencies: visit every
registered name not yet visited, with a fresh recursion stack and path. -/
def checkTop (cm : ComponentMap) (fuel : Nat) :
    List String → List String → Except String Unit
  | [], _ => Except.ok ()
  | n :: rest, visited =>
      if n ∉ visited then
        match visit cm fuel n visited [] [] with
        | Except.error e => Except.error e
        | Except.ok visited' => checkTop cm fuel rest visited'
      else checkTop cm fuel rest visited

/-- _check_circular_dependencies. -/
def check_circular_dependencies (cm : ComponentMap) :
    Except String Unit :=
  checkTop cm (cm.length + 1) (cm.map Prod.fst) []

/-- The first (component, dependency) pair whose dependency name is not
registered, in registration order — the one whose ValueError
validate_dependencies raises. -/
def firstMissing (names : List String) :
    ComponentMap → Option (String × String)
  | [] => none
  | (n, deps) :: rest =>
      match deps.find? (fun d => ! names.contains d) with
      | some d => some (n, d)
      | none => firstMissing names rest

/-- ComponentRegistry.validate_dependencies: raise on a missing
dependency name, then run cycle detection, then return True. -/
def validate_dependencies (cm : ComponentMap) : Except String Bool :=
  let all_names := cm.map Prod.fst
  match firstMissing all_names cm with
  | some p =>
      Except.error ("Component " ++ p.1 ++ " depends on " ++ p.2 ++
        " which is not registered")
  | none =>
      match check_circular_dependencies cm with
      | Except.error e => Except.error e
      | Except.ok _ => Except.ok true

/-- Every declared dependency of every registered component resolves to a
registered name. -/
def allDepsRegistered (cm : ComponentMap) : Prop :=
  ∀ p ∈ cm, ∀ d ∈ p.2, d ∈ cm.map Prod.fst

/-- The dependency graph has no (directed) cycle. -/
def Acyclic (cm : ComponentMap) : Prop :=
  ∀ n, ¬ Relation.TransGen (Edge cm) n n

/-- DFS invariant: every finished (visited and off the recursion stack)
node only has edges into finished nodes. -/
def Closed (cm : ComponentMap) (visited rec_stack : List String) : Prop :=
  ∀ m ∈ visited, m ∉ rec_stack →
    ∀ d, Edge cm m d → d ∈ visited ∧ d ∉ rec_stack

/-- DFS invariant: no finished node lies on a directed cycle. -/
def NoSelfCycle (cm : ComponentMap)
    (visited rec_stack : List String) : Prop :=
  ∀ m ∈ visited, m ∉ rec_stack → ¬ Relation.TransGen (Edge cm) m m

/-- The two-component cycle of the specification scenario: A depends on
B and B depends on A. -/
def cycleRegistry : ComponentMap := [("A", ["B"]), ("B", ["A"])]

/-- A small acyclic registry: B depends on A. -/
def lineRegistry : ComponentMap := [("A", []), ("B", ["A"])]

end Registry

/- ======================= THEOREMS BELOW ======================= -/

namespace VideoStream

/-- C1: throttle check of the StreamFrames loop. If the frame timestamp
minus the camera's last-processed timestamp (default 0 for an unseen
camera) is strictly below min_frame_interval_ms, the frame is dropped:
the dropped counter of the camera is incremented, a throttled response
with zero faces and zero processing time is emitted, and the servicer
throttle state is left unchanged; otherwise the last-processed timestamp
is updated to the frame timestamp and the frame proceeds to decode and
processing. -/
theorem claim1_throttle_check {Img : Type} (min_frame_interval_ms : ℚ)
    (decode : List Nat → Option Img)
    (process : Img → String → Except String ProcResult)
    (st : VideoStreamState) (cm : CameraMetricsMap)
    (req : VideoFrameRequest) :
    (req.timestamp_ms -
          ((lookupA st.last_process_time
              (normalizeCameraId req.camera_id)).getD 0) <
        min_frame_interval_ms →
      streamStep min_frame_interval_ms decode process st cm req =
        (st,
         adjustA (ensureCamera cm (normalizeCameraId req.camera_id))
           (normalizeCameraId req.camera_id)
           (fun m => { m with frames_dropped := m.frames_dropped + 1 }),
         create_throttled_response (normalizeCameraId req.camera_id)
           req.frame_id) ∧
      (create_throttled_response (normalizeCameraId req.camera_id)
          req.frame_id).total_faces_detected = 0 ∧
      (create_throttled_response (normalizeCameraId req.camera_id)
          req.frame_id).processing_time_ms = 0 ∧
      (create_throttled_response (normalizeCameraId req.camera_id)
          req.frame_id).faces = []) ∧
    (¬ req.timestamp_ms -
          ((lookupA st.last_process_time
              (normalizeCameraId req.camera_id)).getD 0) <
        min_frame_interval_ms →
      (streamStep min_frame_interval_ms decode process st cm req).1 =
        ⟨updateA st.last_process_time (normalizeCameraId req.camera_id)
          req.timestamp_ms⟩ ∧
      (streamStep min_frame_interval_ms decode process st cm req).2.2 =
        decodeProcessResponse decode process
          (normalizeCameraId req.camera_id) req.frame_id req.image_jpeg) := by
  constructor
  · intro h
    refine ⟨?_, rfl, rfl, rfl⟩
    simp only [streamStep, should_process_frame]
    rw [if_pos h]
  · intro h
    have hs : should_process_frame min_frame_interval_ms st
        (normalizeCameraId req.camera_id) req.timestamp_ms =
        (true,
         ⟨updateA st.last_process_time (normalizeCameraId req.camera_id)
            req.timestamp_ms⟩) := by
      simp only [should_process_frame]
      rw [if_neg h]
    constructor
    · simp only [streamStep, hs]
      rcases hdec : decode_jpeg decode req.image_jpeg with _ | frame
      · simp [hdec]
      · rcases hp : process frame (normalizeCameraId req.camera_id) with e | r
        · simp [hdec, hp]
        · simp [hdec, hp]
    · simp only [streamStep, decodeProcessResponse, hs]
      rcases hdec : decode_jpeg decode req.image_jpeg with _ | frame
      · simp [hdec]
      · rcases hp : process frame (normalizeCameraId req.camera_id) with e | r
        · simp [hdec, hp]
        · simp [hdec, hp]

/-- Witness for C1 at concrete inputs: a frame at 0 ms on a fresh servicer
is throttled (0 - 0 < 33), a frame at 50 ms passes and records its
timestamp. -/
theorem claim1_throttle_check_witness :
    (streamStep 33 constDecode emptyProcess ⟨[]⟩ []
        { camera_id := "cam1", frame_id := 1, timestamp_ms := 0,
          image_jpeg := List.replicate 100 0 } =
      (⟨[]⟩,
       adjustA (ensureCamera [] "cam1") "cam1"
         (fun m => { m with frames_dropped := m.frames_dropped + 1 }),
       create_throttled_response "cam1" 1)) ∧
    ((streamStep 33 constDecode emptyProcess ⟨[]⟩ []
        { camera_id := "cam1", frame_id := 3, timestamp_ms := 50,
          image_jpeg := List.replicate 100 0 }).1 =
      ⟨updateA [] "cam1" 50⟩) := by
  constructor
  · exact ((claim1_throttle_check 33 constDecode emptyProcess ⟨[]⟩ []
      { camera_id := "cam1", frame_id := 1, timestamp_ms := 0,
        image_jpeg := List.replicate 100 0 }).1
      (by norm_num [lookupA, normalizeCameraId])).1
  · exact ((claim1_throttle_check 33 constDecode emptyProcess ⟨[]⟩ []
      { camera_id := "cam1", frame_id := 3, timestamp_ms := 50,
        image_jpeg := List.replicate 100 0 }).2
      (by norm_num [lookupA, normalizeCameraId])).1

/-- C2 counterexample: in the 3-frame scenario (timestamps 0, 10, 50 ms,
min interval 33 ms) the first frame is answered with a throttled response
(elapsed 0 - 0 = 0 < 33), and the final metrics are frames_processed = 1
and frames_dropped = 2, not frames_processed = 2 and frames_dropped = 1
as claimed. -/
theorem claim2_counterexample :
    scenarioRun.1.head? = some (create_throttled_response "cam1" 1) ∧
    (lookupA scenarioRun.2.2 "cam1").map CameraMetrics.frames_processed =
      some 1 ∧
    (lookupA scenarioRun.2.2 "cam1").map CameraMetrics.frames_dropped =
      some 2 ∧
    ¬ ((lookupA scenarioRun.2.2 "cam1").map CameraMetrics.frames_processed =
        some 2 ∧
       (lookupA scenarioRun.2.2 "cam1").map CameraMetrics.frames_dropped =
        some 1) := by
  have hrun : scenarioRun =
      ([create_throttled_response "cam1" 1,
        create_throttled_response "cam1" 2,
        build_response { faces := [], time_ms := 0, metrics := none }
          "cam1" 3],
       ⟨[("cam1", 50)]⟩,
       [("cam1", { camera_id := "cam1", frames_processed := 1,
                   frames_dropped := 2, faces_detected := 0,
                   total_processing_ms := 0 })]) := by
    norm_num [scenarioRun, streamFrames, streamStep, should_process_frame,
      lookupA, updateA, adjustA, ensureCamera, normalizeCameraId,
      decode_jpeg, create_throttled_response, build_response,
      constDecode, emptyProcess, scenarioRequests, CameraMetrics.add_frame]
    decide
  rw [hrun]
  refine ⟨rfl, rfl, rfl, ?_⟩
  intro hcontra
  simpa [lookupA] using hcontra.1


/-- Lookup after adjusting the same key maps the stored value. -/
theorem lookupA_adjustA_self {α : Type} (m : List (String × α)) (k : String)
    (f : α → α) : lookupA (adjustA m k f) k = (lookupA m k).map f := by
  induction m with
  | nil => simp [lookupA, adjustA]
  | cons p rest ih =>
      obtain ⟨k', v'⟩ := p
      by_cases h : k' = k
      · subst h
        simp [lookupA, adjustA]
      · simp [lookupA, adjustA, h, ih]

/-- Lookup after adjusting a different key is unchanged. -/
theorem lookupA_adjustA_ne {α : Type} (m : List (String × α))
    (k k' : String) (f : α → α) (h : k' ≠ k) :
    lookupA (adjustA m k f) k' = lookupA m k' := by
  induction m with
  | nil => simp [lookupA, adjustA]
  | cons p rest ih =>
      obtain ⟨a, b⟩ := p
      by_cases ha : a = k
      · subst ha
        simp [lookupA, adjustA, Ne.symm h]
      · by_cases hb : a = k'
        · subst hb
          simp [lookupA, adjustA, ha]
        · simp [lookupA, adjustA, ha, hb, ih]

/-- Lookup in an extended map: an appended fresh binding is only seen by
its own key. -/
theorem lookupA_append_single {α : Type} (m : List (String × α))
    (k k' : String) (v : α) :
    lookupA (m ++ [(k, v)]) k' =
      ((lookupA m k').orElse (fun _ => if k = k' then some v else none)) := by
  induction m with
  | nil => simp [lookupA]
  | cons p rest ih =>
      obtain ⟨a, b⟩ := p
      by_cases ha : a = k'
      · simp [lookupA, ha]
      · simp [lookupA, ha, ih]

/-- Lookup through ensureCamera: the ensured camera is bound (to its old
record, else to a fresh all-zero record), other keys are untouched. -/
theorem lookupA_ensureCamera (cm : CameraMetricsMap) (c cam : String) :
    lookupA (ensureCamera cm c) cam =
      if c = cam then some ((lookupA cm c).getD { camera_id := c })
      else lookupA cm cam := by
  unfold ensureCamera
  rcases h : lookupA cm c with _ | m
  · rw [lookupA_append_single]
    by_cases hc : c = cam
    · subst hc
      simp [h]
    · simp only [hc, if_false]
      cases lookupA cm cam <;> simp
  · by_cases hc : c = cam
    · subst hc
      simp [h]
    · simp [hc]

/-- ensureCamera never changes the processed+dropped bucket of any
camera: a fresh record starts with both counters at zero. -/
theorem bucketCount_ensureCamera (cm : CameraMetricsMap) (c cam : String) :
    bucketCount (ensureCamera cm c) cam = bucketCount cm cam := by
  rw [bucketCount, lookupA_ensureCamera]
  by_cases hc : c = cam
  · subst hc
    rcases hm : lookupA cm c with _ | m <;> simp [bucketCount, hm]
  · simp [bucketCount, hc]

/-- Bumping the record of the ensured camera by one processed-or-dropped
frame adds one to its bucket and leaves other cameras alone. -/
theorem bucketCount_adjust_bump (cm : CameraMetricsMap) (c0 cam : String)
    (f : CameraMetrics → CameraMetrics)
    (hf : ∀ m, (f m).frames_processed + (f m).frames_dropped =
      m.frames_processed + m.frames_dropped + 1) :
    bucketCount (adjustA (ensureCamera cm c0) c0 f) cam =
      bucketCount cm cam + (if c0 = cam then 1 else 0) := by
  by_cases hc : c0 = cam
  · subst hc
    rcases hm : lookupA cm c0 with _ | m <;>
      simp [bucketCount, lookupA_adjustA_self, lookupA_ensureCamera, hm, hf]
  · have h1 : lookupA (adjustA (ensureCamera cm c0) c0 f) cam =
        lookupA (ensureCamera cm c0) cam :=
      lookupA_adjustA_ne _ _ _ _ (fun hh => hc hh.symm)
    rw [bucketCount, h1, lookupA_ensureCamera]
    simp [bucketCount, hc]

/-- streamStep on a throttled frame. -/
theorem streamStep_eq_throttled {Img : Type} (min_ms : ℚ)
    (decode : List Nat → Option Img)
    (process : Img → String → Except String ProcResult)
    (st : VideoStreamState) (cm : CameraMetricsMap)
    (req : VideoFrameRequest)
    (h : req.timestamp_ms -
        ((lookupA st.last_process_time
            (normalizeCameraId req.camera_id)).getD 0) < min_ms) :
    streamStep min_ms decode process st cm req =
      (st,
       adjustA (ensureCamera cm (normalizeCameraId req.camera_id))
         (normalizeCameraId req.camera_id)
         (fun m => { m with frames_dropped := m.frames_dropped + 1 }),
       create_throttled_response (normalizeCameraId req.camera_id)
         req.frame_id) := by
  simp only [streamStep, should_process_frame]
  rw [if_pos h]

/-- streamStep on a frame that passes the throttle but fails to decode. -/
theorem streamStep_eq_decodeFailed {Img : Type} (min_ms : ℚ)
    (decode : List Nat → Option Img)
    (process : Img → String → Except String ProcResult)
    (st : VideoStreamState) (cm : CameraMetricsMap)
    (req : VideoFrameRequest)
    (h : ¬ req.timestamp_ms -
        ((lookupA st.last_process_time
            (normalizeCameraId req.camera_id)).getD 0) < min_ms)
    (hdec : decode_jpeg decode req.image_jpeg = none) :
    streamStep min_ms decode process st cm req =
      (⟨updateA st.last_process_time (normalizeCameraId req.camera_id)
          req.timestamp_ms⟩,
       ensureCamera cm (normalizeCameraId req.camera_id),
       create_error_response (normalizeCameraId req.camera_id) req.frame_id
         "Failed to decode JPEG frame") := by
  simp only [streamStep, should_process_frame]
  rw [if_neg h]
  simp only [hdec]

/-- streamStep on a frame whose processing raises. -/
theorem streamStep_eq_processFailed {Img : Type} (min_ms : ℚ)
    (decode : List Nat → Option Img)
    (process : Img → String → Except String ProcResult)
    (st : VideoStreamState) (cm : CameraMetricsMap)
    (req : VideoFrameRequest) (frame : Img) (e : String)
    (h : ¬ req.timestamp_ms -
        ((lookupA st.last_process_time
            (normalizeCameraId req.camera_id)).getD 0) < min_ms)
    (hdec : decode_jpeg decode req.image_jpeg = some frame)
    (hp : process frame (normalizeCameraId req.camera_id) =
      Except.error e) :
    streamStep min_ms decode process st cm req =
      (⟨updateA st.last_process_time (normalizeCameraId req.camera_id)
          req.timestamp_ms⟩,
       ensureCamera cm (normalizeCameraId req.camera_id),
       create_error_response (normalizeCameraId req.camera_id) req.frame_id
         ("Processing failed: " ++ e)) := by
  simp only [streamStep, should_process_frame]
  rw [if_neg h]
  simp only [hdec, hp]

/-- streamStep on a fully processed frame. -/
theorem streamStep_eq_processed {Img : Type} (min_ms : ℚ)
    (decode : List Nat → Option Img)
    (process : Img → String → Except String ProcResult)
    (st : VideoStreamState) (cm : CameraMetricsMap)
    (req : VideoFrameRequest) (frame : Img) (r : ProcResult)
    (h : ¬ req.timestamp_ms -
        ((lookupA st.last_process_time
            (normalizeCameraId req.camera_id)).getD 0) < min_ms)
    (hdec : decode_jpeg decode req.image_jpeg = some frame)
    (hp : process frame (normalizeCameraId req.camera_id) = Except.ok r) :
    streamStep min_ms decode process st cm req =
      (⟨updateA st.last_process_time (normalizeCameraId req.camera_id)
          req.timestamp_ms⟩,
       adjustA (ensureCamera cm (normalizeCameraId req.camera_id))
         (normalizeCameraId req.camera_id)
         (fun m => m.add_frame
           (build_response r (normalizeCameraId req.camera_id)
             req.frame_id).processing_time_ms
           (build_response r (normalizeCameraId req.camera_id)
             req.frame_id).faces.length),
       build_response r (normalizeCameraId req.camera_id) req.frame_id) := by
  simp only [streamStep, should_process_frame]
  rw [if_neg h]
  simp only [hdec, hp]

/-- classifyStep on a throttled frame. -/
theorem classifyStep_eq_throttled {Img : Type} (min_ms : ℚ)
    (decode : List Nat → Option Img)
    (process : Img → String → Except String ProcResult)
    (st : VideoStreamState) (req : VideoFrameRequest)
    (h : req.timestamp_ms -
        ((lookupA st.last_process_time
            (normalizeCameraId req.camera_id)).getD 0) < min_ms) :
    classifyStep min_ms decode process st req = StepOutcome.throttled := by
  simp only [classifyStep, should_process_frame]
  rw [if_pos h]

/-- classifyStep on a decode failure. -/
theorem classifyStep_eq_decodeFailed {Img : Type} (min_ms : ℚ)
    (decode : List Nat → Option Img)
    (process : Img → String → Except String ProcResult)
    (st : VideoStreamState) (req : VideoFrameRequest)
    (h : ¬ req.timestamp_ms -
        ((lookupA st.last_process_time
            (normalizeCameraId req.camera_id)).getD 0) < min_ms)
    (hdec : decode_jpeg decode req.image_jpeg = none) :
    classifyStep min_ms decode process st req =
      StepOutcome.decodeFailed := by
  simp only [classifyStep, should_process_frame]
  rw [if_neg h]
  simp only [hdec]

/-- classifyStep on a processing exception. -/
theorem classifyStep_eq_processFailed {Img : Type} (min_ms : ℚ)
    (decode : List Nat → Option Img)
    (process : Img → String → Except String ProcResult)
    (st : VideoStreamState) (req : VideoFrameRequest) (frame : Img)
    (e : String)
    (h : ¬ req.timestamp_ms -
        ((lookupA st.last_process_time
            (normalizeCameraId req.camera_id)).getD 0) < min_ms)
    (hdec : decode_jpeg decode req.image_jpeg = some frame)
    (hp : process frame (normalizeCameraId req.camera_id) =
      Except.error e) :
    classifyStep min_ms decode process st req =
      StepOutcome.processFailed := by
  simp only [classifyStep, should_process_frame]
  rw [if_neg h]
  simp only [hdec, hp]

/-- classifyStep on a fully processed frame. -/
theorem classifyStep_eq_processed {Img : Type} (min_ms : ℚ)
    (decode : List Nat → Option Img)
    (process : Img → String → Except String ProcResult)
    (st : VideoStreamState) (req : VideoFrameRequest) (frame : Img)
    (r : ProcResult)
    (h : ¬ req.timestamp_ms -
        ((lookupA st.last_process_time
            (normalizeCameraId req.camera_id)).getD 0) < min_ms)
    (hdec : decode_jpeg decode req.image_jpeg = some frame)
    (hp : process frame (normalizeCameraId req.camera_id) = Except.ok r) :
    classifyStep min_ms decode process st req = StepOutcome.processed := by
  simp only [classifyStep, should_process_frame]
  rw [if_neg h]
  simp only [hdec, hp]

/-- The servicer-state component of streamStep is nextState. -/
theorem streamStep_fst {Img : Type} (min_ms : ℚ)
    (decode : List Nat → Option Img)
    (process : Img → String → Except String ProcResult)
    (st : VideoStreamState) (cm : CameraMetricsMap)
    (req : VideoFrameRequest) :
    (streamStep min_ms decode process st cm req).1 =
      nextState min_ms st req := by
  by_cases h : req.timestamp_ms -
      ((lookupA st.last_process_time
          (normalizeCameraId req.camera_id)).getD 0) < min_ms
  · rw [streamStep_eq_throttled min_ms decode process st cm req h]
    simp only [nextState, should_process_frame]
    rw [if_pos h]
  · have hnext : nextState min_ms st req =
        ⟨updateA st.last_process_time (normalizeCameraId req.camera_id)
          req.timestamp_ms⟩ := by
      simp only [nextState, should_process_frame]
      rw [if_neg h]
    rcases hdec : decode_jpeg decode req.image_jpeg with _ | frame
    · rw [streamStep_eq_decodeFailed min_ms decode process st cm req h hdec,
        hnext]
    · rcases hp : process frame (normalizeCameraId req.camera_id) with e | r
      · rw [streamStep_eq_processFailed min_ms decode process st cm req
          frame e h hdec hp, hnext]
      · rw [streamStep_eq_processed min_ms decode process st cm req
          frame r h hdec hp, hnext]

/-- How one streamStep changes the processed+dropped bucket of a camera:
plus one when the frame belongs to the camera and is throttled or fully
processed, unchanged otherwise (in particular for decode failures and
processing exceptions). -/
theorem bucketCount_streamStep {Img : Type} (min_ms : ℚ)
    (decode : List Nat → Option Img)
    (process : Img → String → Except String ProcResult)
    (st : VideoStreamState) (cm : CameraMetricsMap)
    (req : VideoFrameRequest) (cam : String) :
    bucketCount (streamStep min_ms decode process st cm req).2.1 cam =
      bucketCount cm cam +
        (if normalizeCameraId req.camera_id = cam ∧
            (classifyStep min_ms decode process st req =
                StepOutcome.throttled ∨
             classifyStep min_ms decode process st req =
                StepOutcome.processed)
          then 1 else 0) := by
  by_cases h : req.timestamp_ms -
      ((lookupA st.last_process_time
          (normalizeCameraId req.camera_id)).getD 0) < min_ms
  · rw [streamStep_eq_throttled min_ms decode process st cm req h,
      classifyStep_eq_throttled min_ms decode process st req h]
    rw [show (st,
        adjustA (ensureCamera cm (normalizeCameraId req.camera_id))
          (normalizeCameraId req.camera_id)
          (fun m => { m with frames_dropped := m.frames_dropped + 1 }),
        create_throttled_response (normalizeCameraId req.camera_id)
          req.frame_id).2.1 =
      adjustA (ensureCamera cm (normalizeCameraId req.camera_id))
        (normalizeCameraId req.camera_id)
        (fun m => { m with frames_dropped := m.frames_dropped + 1 })
      from rfl]
    rw [bucketCount_adjust_bump cm (normalizeCameraId req.camera_id) cam
      (fun m => { m with frames_dropped := m.frames_dropped + 1 })
      (fun m => by simp; omega)]
    by_cases hcam : normalizeCameraId req.camera_id = cam <;> simp [hcam]
  · rcases hdec : decode_jpeg decode req.image_jpeg with _ | frame
    · rw [streamStep_eq_decodeFailed min_ms decode process st cm req h hdec,
        classifyStep_eq_decodeFailed min_ms decode process st req h hdec]
      rw [show ((⟨updateA st.last_process_time
            (normalizeCameraId req.camera_id) req.timestamp_ms⟩ :
              VideoStreamState),
          ensureCamera cm (normalizeCameraId req.camera_id),
          create_error_response (normalizeCameraId req.camera_id)
            req.frame_id "Failed to decode JPEG frame").2.1 =
        ensureCamera cm (normalizeCameraId req.camera_id) from rfl]
      rw [bucketCount_ensureCamera]
      simp
    · rcases hp : process frame (normalizeCameraId req.camera_id) with e | r
      · rw [streamStep_eq_processFailed min_ms decode process st cm req
          frame e h hdec hp,
          classifyStep_eq_processFailed min_ms decode process st req
            frame e h hdec hp]
        rw [show ((⟨updateA st.last_process_time
              (normalizeCameraId req.camera_id) req.timestamp_ms⟩ :
                VideoStreamState),
            ensureCamera cm (normalizeCameraId req.camera_id),
            create_error_response (normalizeCameraId req.camera_id)
              req.frame_id ("Processing failed: " ++ e)).2.1 =
          ensureCamera cm (normalizeCameraId req.camera_id) from rfl]
        rw [bucketCount_ensureCamera]
        simp
      · rw [streamStep_eq_processed min_ms decode process st cm req
          frame r h hdec hp,
          classifyStep_eq_processed min_ms decode process st req
            frame r h hdec hp]
        rw [show ((⟨updateA st.last_process_time
              (normalizeCameraId req.camera_id) req.timestamp_ms⟩ :
                VideoStreamState),
            adjustA (ensureCamera cm (normalizeCameraId req.camera_id))
              (normalizeCameraId req.camera_id)
              (fun m => m.add_frame
                (build_response r (normalizeCameraId req.camera_id)
                  req.frame_id).processing_time_ms
                (build_response r (normalizeCameraId req.camera_id)
                  req.frame_id).faces.length),
            build_response r (normalizeCameraId req.camera_id)
              req.frame_id).2.1 =
          adjustA (ensureCamera cm (normalizeCameraId req.camera_id))
            (normalizeCameraId req.camera_id)
            (fun m => m.add_frame
              (build_response r (normalizeCameraId req.camera_id)
                req.frame_id).processing_time_ms
              (build_response r (normalizeCameraId req.camera_id)
                req.frame_id).faces.length) from rfl]
        rw [bucketCount_adjust_bump cm (normalizeCameraId req.camera_id) cam
          _ (fun m => by simp [CameraMetrics.add_frame]; omega)]
        by_cases hcam : normalizeCameraId req.camera_id = cam <;>
          simp [hcam]

/-- Unfolding lemma for streamFrames on a cons cell (metrics component). -/
theorem streamFrames_cons_metrics {Img : Type} (min_ms : ℚ)
    (decode : List Nat → Option Img)
    (process : Img → String → Except String ProcResult)
    (st : VideoStreamState) (cm : CameraMetricsMap)
    (req : VideoFrameRequest) (rest : List VideoFrameRequest) :
    (streamFrames min_ms decode process st cm (req :: rest)).2.2 =
      (streamFrames min_ms decode process
        (streamStep min_ms decode process st cm req).1
        (streamStep min_ms decode process st cm req).2.1 rest).2.2 := rfl

/-- C3 amended: for every camera, frames_processed + frames_dropped at the
end of a StreamFrames call equals the frames received for that camera
minus those answered with error responses (failed JPEG decode or a raised
processing exception), which are counted in neither bucket. -/
theorem claim3_frame_accounting {Img : Type} (min_ms : ℚ)
    (decode : List Nat → Option Img)
    (process : Img → String → Except String ProcResult) :
    ∀ (reqs : List VideoFrameRequest) (st : VideoStreamState)
      (cm : CameraMetricsMap) (cam : String),
      bucketCount (streamFrames min_ms decode process st cm reqs).2.2 cam +
          errorCount min_ms decode process st reqs cam =
        bucketCount cm cam + recvCount reqs cam := by
  intro reqs
  induction reqs with
  | nil => intro st cm cam; simp [streamFrames, errorCount, recvCount]
  | cons req rest ih =>
      intro st cm cam
      rw [streamFrames_cons_metrics, streamStep_fst]
      simp only [errorCount, recvCount]
      have hih := ih (nextState min_ms st req)
        (streamStep min_ms decode process st cm req).2.1 cam
      rw [bucketCount_streamStep] at hih
      by_cases hcam : normalizeCameraId req.camera_id = cam
      · rcases ho : classifyStep min_ms decode process st req with
          _ | _ | _ | _ <;> simp [hcam, ho] at hih ⊢ <;> omega
      · simp [hcam] at hih ⊢
        omega

/-- C3 counterexample: one frame that passes the throttle but fails to
decode is received yet counted in neither bucket, so
frames_processed + frames_dropped = 0 while one frame was received. -/
theorem claim3_counterexample :
    bucketCount
        (streamFrames 33 constDecode emptyProcess ⟨[]⟩ [] [badRequest]).2.2
        "cam1" = 0 ∧
    recvCount [badRequest] "cam1" = 1 ∧
    bucketCount
        (streamFrames 33 constDecode emptyProcess ⟨[]⟩ [] [badRequest]).2.2
        "cam1" ≠
      recvCount [badRequest] "cam1" := by
  have hrun : streamFrames 33 constDecode emptyProcess ⟨[]⟩ []
      [badRequest] =
      ([create_error_response "cam1" 1 "Failed to decode JPEG frame"],
       ⟨[("cam1", 50)]⟩,
       [("cam1", { camera_id := "cam1" })]) := by
    norm_num [streamFrames, streamStep, should_process_frame, lookupA,
      updateA, ensureCamera, normalizeCameraId, decode_jpeg, constDecode,
      emptyProcess, badRequest, create_error_response]
    decide
  rw [hrun]
  refine ⟨?_, ?_, ?_⟩
  · simp [bucketCount, lookupA]
  · norm_num [recvCount, badRequest, normalizeCameraId]
    decide
  · simp [bucketCount, lookupA, recvCount, badRequest, normalizeCameraId]



/-- Unfolding lemma for streamFrames on a cons cell (response list). -/
theorem streamFrames_cons_responses {Img : Type} (min_ms : ℚ)
    (decode : List Nat → Option Img)
    (process : Img → String → Except String ProcResult)
    (st : VideoStreamState) (cm : CameraMetricsMap)
    (req : VideoFrameRequest) (rest : List VideoFrameRequest) :
    (streamFrames min_ms decode process st cm (req :: rest)).1 =
      (streamStep min_ms decode process st cm req).2.2 ::
        (streamFrames min_ms decode process
          (streamStep min_ms decode process st cm req).1
          (streamStep min_ms decode process st cm req).2.1 rest).1 := rfl

/-- Unfolding lemma for streamFrames on a cons cell (servicer state). -/
theorem streamFrames_cons_state {Img : Type} (min_ms : ℚ)
    (decode : List Nat → Option Img)
    (process : Img → String → Except String ProcResult)
    (st : VideoStreamState) (cm : CameraMetricsMap)
    (req : VideoFrameRequest) (rest : List VideoFrameRequest) :
    (streamFrames min_ms decode process st cm (req :: rest)).2.1 =
      (streamFrames min_ms decode process
        (streamStep min_ms decode process st cm req).1
        (streamStep min_ms decode process st cm req).2.1 rest).2.1 := rfl

/-- C4 counterexample: the response built for a decode failure does not
depend on the error-message argument at all (the proto has no field for
it) and coincides with a throttled response, so it carries no descriptive
error message. -/
theorem claim4_counterexample :
    create_error_response "cam1" 7 "Failed to decode JPEG frame" =
      create_error_response "cam1" 7 "" ∧
    create_error_response "cam1" 7 "Failed to decode JPEG frame" =
      create_throttled_response "cam1" 7 :=
  ⟨rfl, rfl⟩

/-- C4 amended: when a frame passes the throttle check but its bytes fail
to decode, StreamFrames emits the error-shaped response carrying the
request's (normalized) camera_id and frame_id with zero faces and zero
processing time — the descriptive message is logged, not put in the
response — and the stream stays open: the remaining frames are handled by
the same loop, from the updated throttle state. -/
theorem claim4_decode_error_keeps_stream {Img : Type} (min_ms : ℚ)
    (decode : List Nat → Option Img)
    (process : Img → String → Except String ProcResult)
    (st : VideoStreamState) (cm : CameraMetricsMap)
    (req : VideoFrameRequest) (rest : List VideoFrameRequest)
    (hthr : ¬ req.timestamp_ms -
        ((lookupA st.last_process_time
            (normalizeCameraId req.camera_id)).getD 0) < min_ms)
    (hdec : decode_jpeg decode req.image_jpeg = none) :
    (streamFrames min_ms decode process st cm (req :: rest)).1 =
      create_error_response (normalizeCameraId req.camera_id) req.frame_id
          "Failed to decode JPEG frame" ::
        (streamFrames min_ms decode process
          ⟨updateA st.last_process_time (normalizeCameraId req.camera_id)
            req.timestamp_ms⟩
          (ensureCamera cm (normalizeCameraId req.camera_id)) rest).1 ∧
    (create_error_response (normalizeCameraId req.camera_id) req.frame_id
        "Failed to decode JPEG frame").camera_id =
      normalizeCameraId req.camera_id ∧
    (create_error_response (normalizeCameraId req.camera_id) req.frame_id
        "Failed to decode JPEG frame").frame_id = req.frame_id ∧
    (create_error_response (normalizeCameraId req.camera_id) req.frame_id
        "Failed to decode JPEG frame").total_faces_detected = 0 ∧
    (create_error_response (normalizeCameraId req.camera_id) req.frame_id
        "Failed to decode JPEG frame").processing_time_ms = 0 := by
  refine ⟨?_, rfl, rfl, rfl, rfl⟩
  rw [streamFrames_cons_responses,
    streamStep_eq_decodeFailed min_ms decode process st cm req hthr hdec]

/-- Witness for C4 at concrete inputs: an empty payload at 50 ms on a
fresh servicer gives the error response and the stream continues with the
next frame. -/
theorem claim4_witness :
    (streamFrames 33 constDecode emptyProcess ⟨[]⟩ []
        (badRequest :: [goodRequest])).1 =
      create_error_response "cam1" 1 "Failed to decode JPEG frame" ::
        (streamFrames 33 constDecode emptyProcess ⟨updateA [] "cam1" 50⟩
          (ensureCamera [] "cam1") [goodRequest]).1 := by
  exact (claim4_decode_error_keeps_stream 33 constDecode emptyProcess
    ⟨[]⟩ [] badRequest [goodRequest]
    (by norm_num [lookupA, normalizeCameraId, badRequest])
    rfl).1

/-- Lookup after updating the same key returns the stored value. -/
theorem lookupA_updateA_self {α : Type} (m : List (String × α))
    (k : String) (v : α) : lookupA (updateA m k v) k = some v := by
  induction m with
  | nil => simp [lookupA, updateA]
  | cons p rest ih =>
      obtain ⟨a, b⟩ := p
      by_cases ha : a = k
      · subst ha
        simp [lookupA, updateA]
      · simp [lookupA, updateA, ha, ih]

/-- Lookup after updating a different key is unchanged. -/
theorem lookupA_updateA_ne {α : Type} (m : List (String × α))
    (k k' : String) (v : α) (h : k' ≠ k) :
    lookupA (updateA m k v) k' = lookupA m k' := by
  induction m with
  | nil => simp [lookupA, updateA, Ne.symm h]
  | cons p rest ih =>
      obtain ⟨a, b⟩ := p
      by_cases ha : a = k
      · subst ha
        simp [lookupA, updateA, Ne.symm h]
      · by_cases hb : a = k'
        · subst hb
          simp [lookupA, updateA, ha]
        · simp [lookupA, updateA, ha, hb, ih]

/-- nextState written as a plain conditional. -/
theorem nextState_eq (min_ms : ℚ) (st : VideoStreamState)
    (req : VideoFrameRequest) :
    nextState min_ms st req =
      if req.timestamp_ms -
          ((lookupA st.last_process_time
              (normalizeCameraId req.camera_id)).getD 0) < min_ms
      then st
      else ⟨updateA st.last_process_time (normalizeCameraId req.camera_id)
        req.timestamp_ms⟩ := by
  by_cases h : req.timestamp_ms -
      ((lookupA st.last_process_time
          (normalizeCameraId req.camera_id)).getD 0) < min_ms <;>
    simp [nextState, should_process_frame, h]

/-- One step never touches the stored timestamp of a camera it is not
addressed to. -/
theorem nextState_lookup_ne (min_ms : ℚ) (st : VideoStreamState)
    (req : VideoFrameRequest) (cam : String)
    (h : normalizeCameraId req.camera_id ≠ cam) :
    lookupA (nextState min_ms st req).last_process_time cam =
      lookupA st.last_process_time cam := by
  rw [nextState_eq]
  by_cases hc : req.timestamp_ms -
      ((lookupA st.last_process_time
          (normalizeCameraId req.camera_id)).getD 0) < min_ms
  · rw [if_pos hc]
  · rw [if_neg hc]
    exact lookupA_updateA_ne _ _ _ _ (fun hh => h hh.symm)

/-- A whole call never touches the stored timestamp of a camera that none
of its frames is addressed to. -/
theorem streamFrames_lp_ne {Img : Type} (min_ms : ℚ)
    (decode : List Nat → Option Img)
    (process : Img → String → Except String ProcResult) :
    ∀ (reqs : List VideoFrameRequest) (st : VideoStreamState)
      (cm : CameraMetricsMap) (cam : String),
      (∀ r ∈ reqs, normalizeCameraId r.camera_id ≠ cam) →
      lookupA (streamFrames min_ms decode process st cm
          reqs).2.1.last_process_time cam =
        lookupA st.last_process_time cam := by
  intro reqs
  induction reqs with
  | nil => intro st cm cam _; rfl
  | cons req rest ih =>
      intro st cm cam h
      rw [streamFrames_cons_state, streamStep_fst]
      rw [ih (nextState min_ms st req)
        (streamStep min_ms decode process st cm req).2.1 cam
        (fun r hr => h r (List.mem_cons_of_mem _ hr))]
      exact nextState_lookup_ne min_ms st req cam
        (h req (List.mem_cons_self _ _))

/-- The per-call outputs of one step (metrics update and response) depend
on the servicer state only through the stored timestamp of the frame's
camera. -/
theorem streamStep_snd_congr {Img : Type} (min_ms : ℚ)
    (decode : List Nat → Option Img)
    (process : Img → String → Except String ProcResult)
    (st1 st2 : VideoStreamState) (cm : CameraMetricsMap)
    (req : VideoFrameRequest)
    (hlp : lookupA st1.last_process_time (normalizeCameraId req.camera_id) =
      lookupA st2.last_process_time (normalizeCameraId req.camera_id)) :
    (streamStep min_ms decode process st1 cm req).2 =
      (streamStep min_ms decode process st2 cm req).2 := by
  by_cases h : req.timestamp_ms -
      ((lookupA st1.last_process_time
          (normalizeCameraId req.camera_id)).getD 0) < min_ms
  · have h2 : req.timestamp_ms -
        ((lookupA st2.last_process_time
            (normalizeCameraId req.camera_id)).getD 0) < min_ms := by
      rw [← hlp]; exact h
    rw [streamStep_eq_throttled min_ms decode process st1 cm req h,
      streamStep_eq_throttled min_ms decode process st2 cm req h2]
  · have h2 : ¬ req.timestamp_ms -
        ((lookupA st2.last_process_time
            (normalizeCameraId req.camera_id)).getD 0) < min_ms := by
      rw [← hlp]; exact h
    rcases hdec : decode_jpeg decode req.image_jpeg with _ | frame
    · rw [streamStep_eq_decodeFailed min_ms decode process st1 cm req h hdec,
        streamStep_eq_decodeFailed min_ms decode process st2 cm req h2 hdec]
    · rcases hp : process frame (normalizeCameraId req.camera_id) with e | r
      · rw [streamStep_eq_processFailed min_ms decode process st1 cm req
          frame e h hdec hp,
          streamStep_eq_processFailed min_ms decode process st2 cm req
            frame e h2 hdec hp]
      · rw [streamStep_eq_processed min_ms decode process st1 cm req
          frame r h hdec hp,
          streamStep_eq_processed min_ms decode process st2 cm req
            frame r h2 hdec hp]

/-- Pointwise agreement of the stored timestamps is preserved by a step,
provided the two states agree on the frame's camera. -/
theorem nextState_congr (min_ms : ℚ) (st1 st2 : VideoStreamState)
    (req : VideoFrameRequest)
    (hlp : lookupA st1.last_process_time (normalizeCameraId req.camera_id) =
      lookupA st2.last_process_time (normalizeCameraId req.camera_id)) :
    ∀ c, lookupA st1.last_process_time c = lookupA st2.last_process_time c →
      lookupA (nextState min_ms st1 req).last_process_time c =
        lookupA (nextState min_ms st2 req).last_process_time c := by
  intro c hc
  rw [nextState_eq, nextState_eq]
  by_cases h : req.timestamp_ms -
      ((lookupA st1.last_process_time
          (normalizeCameraId req.camera_id)).getD 0) < min_ms
  · have h2 : req.timestamp_ms -
        ((lookupA st2.last_process_time
            (normalizeCameraId req.camera_id)).getD 0) < min_ms := by
      rw [← hlp]; exact h
    rw [if_pos h, if_pos h2]
    exact hc
  · have h2 : ¬ req.timestamp_ms -
        ((lookupA st2.last_process_time
            (normalizeCameraId req.camera_id)).getD 0) < min_ms := by
      rw [← hlp]; exact h
    rw [if_neg h, if_neg h2]
    by_cases hcc : normalizeCameraId req.camera_id = c
    · subst hcc
      rw [lookupA_updateA_self, lookupA_updateA_self]
    · rw [lookupA_updateA_ne _ _ _ _ (fun hh => hcc hh.symm),
        lookupA_updateA_ne _ _ _ _ (fun hh => hcc hh.symm)]
      exact hc

/-- The responses and final metrics of a call depend on the servicer
state only through the stored timestamps of the cameras addressed by the
call's frames. -/
theorem streamFrames_congr_lp {Img : Type} (min_ms : ℚ)
    (decode : List Nat → Option Img)
    (process : Img → String → Except String ProcResult) :
    ∀ (reqs : List VideoFrameRequest) (st1 st2 : VideoStreamState)
      (cm : CameraMetricsMap),
      (∀ r ∈ reqs,
        lookupA st1.last_process_time (normalizeCameraId r.camera_id) =
          lookupA st2.last_process_time (normalizeCameraId r.camera_id)) →
      (streamFrames min_ms decode process st1 cm reqs).1 =
        (streamFrames min_ms decode process st2 cm reqs).1 ∧
      (streamFrames min_ms decode process st1 cm reqs).2.2 =
        (streamFrames min_ms decode process st2 cm reqs).2.2 := by
  intro reqs
  induction reqs with
  | nil => intro st1 st2 cm _; exact ⟨rfl, rfl⟩
  | cons req rest ih =>
      intro st1 st2 cm h
      have hhead := h req (List.mem_cons_self _ _)
      have hsnd := streamStep_snd_congr min_ms decode process st1 st2 cm
        req hhead
      have hcm : (streamStep min_ms decode process st1 cm req).2.1 =
          (streamStep min_ms decode process st2 cm req).2.1 :=
        congrArg Prod.fst hsnd
      have hresp : (streamStep min_ms decode process st1 cm req).2.2 =
          (streamStep min_ms decode process st2 cm req).2.2 :=
        congrArg Prod.snd hsnd
      have hrest := ih (nextState min_ms st1 req) (nextState min_ms st2 req)
        (streamStep min_ms decode process st2 cm req).2.1
        (fun r hr => nextState_congr min_ms st1 st2 req hhead _
          (h r (List.mem_cons_of_mem _ hr)))
      constructor
      · rw [streamFrames_cons_responses, streamFrames_cons_responses,
          streamStep_fst, streamStep_fst, hresp, hcm, hrest.1]
      · rw [streamFrames_cons_metrics, streamFrames_cons_metrics,
          streamStep_fst, streamStep_fst, hcm, hrest.2]

/-- Normalization keeps the literal camera id "cam1". -/
theorem normalizeCameraId_cam1 : normalizeCameraId "cam1" = "cam1" := rfl

/-- C9 counterexample: the throttle map is servicer-instance state, not
call state. After a call that processed a frame at 100 ms for "cam1", a
second call sending a frame at 50 ms for "cam1" is throttled
(50 - 100 < 33), while the same call on a fresh servicer processes it —
so a StreamFrames call does not produce the same responses regardless of
earlier calls. -/
theorem claim9_counterexample :
    (streamFrames 33 constDecode timedProcess
        (streamFrames 33 constDecode timedProcess ⟨[]⟩ []
          [goodRequest]).2.1
        [] [laterRequest]).1 ≠
      (streamFrames 33 constDecode timedProcess ⟨[]⟩ []
        [laterRequest]).1 := by
  have h1 : (streamFrames 33 constDecode timedProcess ⟨[]⟩ []
      [goodRequest]).2.1 = ⟨[("cam1", 100)]⟩ := by
    norm_num [streamFrames, streamStep, should_process_frame, lookupA,
      updateA, adjustA, ensureCamera, normalizeCameraId_cam1, decode_jpeg,
      constDecode, timedProcess, goodRequest, build_response,
      CameraMetrics.add_frame]
  have h2 : (streamFrames 33 constDecode timedProcess ⟨[("cam1", 100)]⟩ []
      [laterRequest]).1 = [create_throttled_response "cam1" 1] := by
    norm_num [streamFrames, streamStep, should_process_frame, lookupA,
      updateA, adjustA, ensureCamera, normalizeCameraId_cam1, decode_jpeg,
      constDecode, timedProcess, laterRequest, create_throttled_response,
      CameraMetrics.add_frame]
  have h3 : (streamFrames 33 constDecode timedProcess ⟨[]⟩ []
      [laterRequest]).1 =
      [build_response { faces := [], time_ms := 5, metrics := none }
        "cam1" 1] := by
    norm_num [streamFrames, streamStep, should_process_frame, lookupA,
      updateA, adjustA, ensureCamera, normalizeCameraId_cam1, decode_jpeg,
      constDecode, timedProcess, laterRequest, build_response,
      CameraMetrics.add_frame]
  rw [h1, h2, h3]
  decide

/-- The servicer-state component of a whole call is runState: only the
throttle check writes the last-process-time dict, never decode or
processing. -/
theorem streamFrames_state_eq_runState {Img : Type} (min_ms : ℚ)
    (decode : List Nat → Option Img)
    (process : Img → String → Except String ProcResult) :
    ∀ (reqs : List VideoFrameRequest) (st : VideoStreamState)
      (cm : CameraMetricsMap),
      (streamFrames min_ms decode process st cm reqs).2.1 =
        runState min_ms st reqs := by
  intro reqs
  induction reqs with
  | nil => intro st cm; rfl
  | cons req rest ih =>
      intro st cm
      rw [streamFrames_cons_state, streamStep_fst]
      exact ih (nextState min_ms st req) _

/-- The throttle map holds no entry for a camera after one step exactly
when it held none before and the step's frame did not pass the throttle
check for that camera. -/
theorem lookupA_nextState_none_iff (min_ms : ℚ) (st : VideoStreamState)
    (req : VideoFrameRequest) (cam : String) :
    lookupA (nextState min_ms st req).last_process_time cam = none ↔
      (lookupA st.last_process_time cam = none ∧
        ¬ (normalizeCameraId req.camera_id = cam ∧
          (should_process_frame min_ms st (normalizeCameraId req.camera_id)
              req.timestamp_ms).1 = true)) := by
  by_cases h : req.timestamp_ms -
      ((lookupA st.last_process_time
          (normalizeCameraId req.camera_id)).getD 0) < min_ms
  · have hbit : (should_process_frame min_ms st
        (normalizeCameraId req.camera_id) req.timestamp_ms).1 = false := by
      simp [should_process_frame, h]
    rw [nextState_eq, if_pos h]
    simp [hbit]
  · have hbit : (should_process_frame min_ms st
        (normalizeCameraId req.camera_id) req.timestamp_ms).1 = true := by
      simp [should_process_frame, h]
    rw [nextState_eq, if_neg h]
    by_cases hcc : normalizeCameraId req.camera_id = cam
    · subst hcc
      simp [lookupA_updateA_self, hbit]
    · rw [show (⟨updateA st.last_process_time
          (normalizeCameraId req.camera_id) req.timestamp_ms⟩ :
            VideoStreamState).last_process_time =
          updateA st.last_process_time (normalizeCameraId req.camera_id)
            req.timestamp_ms from rfl,
        lookupA_updateA_ne _ _ _ _ (fun hh => hcc hh.symm)]
      simp [hcc]

/-- A whole replayed call leaves no entry for a camera exactly when it
started with none and none of the call's frames passed the throttle
check for that camera. -/
theorem lookupA_runState_none_iff (min_ms : ℚ) :
    ∀ (reqs : List VideoFrameRequest) (st : VideoStreamState) (cam : String),
      lookupA (runState min_ms st reqs).last_process_time cam = none ↔
        (lookupA st.last_process_time cam = none ∧
          ¬ passedInCall min_ms st reqs cam) := by
  intro reqs
  induction reqs with
  | nil =>
      intro st cam
      simp [runState, passedInCall]
  | cons req rest ih =>
      intro st cam
      rw [show runState min_ms st (req :: rest) =
        runState min_ms (nextState min_ms st req) rest from rfl]
      rw [ih (nextState min_ms st req) cam, lookupA_nextState_none_iff]
      simp only [passedInCall]
      tauto

/-- Across a sequence of StreamFrames calls on one servicer instance: the
throttle map holds no entry for a camera exactly when it held none at the
start and no frame of that camera passed the throttle check in any of the
calls. -/
theorem lookupA_runCalls_none_iff {Img : Type} (min_ms : ℚ)
    (decode : List Nat → Option Img)
    (process : Img → String → Except String ProcResult) :
    ∀ (calls : List (List VideoFrameRequest)) (st : VideoStreamState)
      (cam : String),
      lookupA (runCalls min_ms decode process st
          calls).2.last_process_time cam = none ↔
        (lookupA st.last_process_time cam = none ∧
          ¬ passedInCalls min_ms st calls cam) := by
  intro calls
  induction calls with
  | nil =>
      intro st cam
      simp [runCalls, passedInCalls]
  | cons reqs more ih =>
      intro st cam
      rw [show (runCalls min_ms decode process st (reqs :: more)).2 =
        (runCalls min_ms decode process
          (streamFrames min_ms decode process st [] reqs).2.1 more).2
        from rfl]
      rw [ih (streamFrames min_ms decode process st [] reqs).2.1 cam,
        streamFrames_state_eq_runState, lookupA_runState_none_iff]
      simp only [passedInCalls]
      tauto

/-- C9 amended: the per-call metrics map is created empty inside each
call, and the only cross-call state is the throttle map: a call leaves the
stored timestamp of every camera it does not address unchanged; its
responses and final metrics depend on the servicer only through the
stored timestamps of the cameras it addresses; and after any sequence of
calls on a fresh servicer the throttle map holds no entry for a camera —
so a later call's throttle check reads the default timestamp 0 — exactly
when none of that camera's frames passed the throttle in any earlier
call. -/
theorem claim9_throttle_state_scope {Img : Type} (min_ms : ℚ)
    (decode : List Nat → Option Img)
    (process : Img → String → Except String ProcResult) :
    (∀ (reqs : List VideoFrameRequest) (st : VideoStreamState)
      (cm : CameraMetricsMap) (cam : String),
      (∀ r ∈ reqs, normalizeCameraId r.camera_id ≠ cam) →
      lookupA (streamFrames min_ms decode process st cm
          reqs).2.1.last_process_time cam =
        lookupA st.last_process_time cam) ∧
    (∀ (reqs : List VideoFrameRequest) (st1 st2 : VideoStreamState)
      (cm : CameraMetricsMap),
      (∀ r ∈ reqs,
        lookupA st1.last_process_time (normalizeCameraId r.camera_id) =
          lookupA st2.last_process_time (normalizeCameraId r.camera_id)) →
      (streamFrames min_ms decode process st1 cm reqs).1 =
        (streamFrames min_ms decode process st2 cm reqs).1 ∧
      (streamFrames min_ms decode process st1 cm reqs).2.2 =
        (streamFrames min_ms decode process st2 cm reqs).2.2) ∧
    (∀ (calls : List (List VideoFrameRequest)) (cam : String),
      lookupA (runCalls min_ms decode process ⟨[]⟩
          calls).2.last_process_time cam = none ↔
        ¬ passedInCalls min_ms ⟨[]⟩ calls cam) := by
  refine ⟨streamFrames_lp_ne min_ms decode process,
    streamFrames_congr_lp min_ms decode process, ?_⟩
  intro calls cam
  rw [lookupA_runCalls_none_iff min_ms decode process calls ⟨[]⟩ cam]
  simp [lookupA]

/-- Witness for C9 at concrete inputs: a call for "cam1" leaves the entry
of "other" untouched, stale state for an unrelated camera does not change
the responses of a "cam1" call, and after one call carrying only a "cam1"
frame the throttle map still has no entry for "other". -/
theorem claim9_witness :
    lookupA (streamFrames 33 constDecode timedProcess ⟨[]⟩ []
        [goodRequest]).2.1.last_process_time "other" =
      lookupA (VideoStreamState.mk []).last_process_time "other" ∧
    (streamFrames 33 constDecode timedProcess ⟨[("camX", 7)]⟩ []
        [goodRequest]).1 =
      (streamFrames 33 constDecode timedProcess ⟨[]⟩ []
        [goodRequest]).1 ∧
    lookupA (runCalls 33 constDecode timedProcess ⟨[]⟩
        [[goodRequest]]).2.last_process_time "other" = none := by
  refine ⟨?_, ?_, ?_⟩
  · exact (claim9_throttle_state_scope 33 constDecode timedProcess).1
      [goodRequest] ⟨[]⟩ [] "other"
      (by
        intro r hr
        rw [List.mem_singleton] at hr
        subst hr
        decide)
  · exact ((claim9_throttle_state_scope 33 constDecode timedProcess).2.1
      [goodRequest] ⟨[("camX", 7)]⟩ ⟨[]⟩ []
      (by
        intro r hr
        rw [List.mem_singleton] at hr
        subst hr
        decide)).1
  · refine ((claim9_throttle_state_scope 33 constDecode
      timedProcess).2.2 [[goodRequest]] "other").mpr ?_
    intro hp
    rcases hp with hp | hp
    · rcases hp with ⟨hcam, _⟩ | hp
      · exact absurd hcam (by decide)
      · exact hp
    · exact hp

/-- C2 amended: in the 3-frame scenario the frames at 0 ms and 10 ms are
throttled (elapsed 0 and 10, both below 33, with the last-processed
timestamp defaulting to 0), the frame at 50 ms is processed, and the
final session metrics are frames_processed = 1, frames_dropped = 2. -/
theorem claim2_amended_scenario :
    scenarioRun.1 =
      [create_throttled_response "cam1" 1,
       create_throttled_response "cam1" 2,
       build_response { faces := [], time_ms := 0, metrics := none }
         "cam1" 3] ∧
    scenarioRun.2.2 =
      [("cam1", { camera_id := "cam1", frames_processed := 1,
                  frames_dropped := 2, faces_detected := 0,
                  total_processing_ms := 0 })] ∧
    scenarioRun.2.1 = ⟨[("cam1", 50)]⟩ := by
  refine ⟨?_, ?_, ?_⟩ <;>
  · norm_num [scenarioRun, streamFrames, streamStep, should_process_frame,
      lookupA, updateA, adjustA, ensureCamera, normalizeCameraId,
      decode_jpeg, create_throttled_response, build_response,
      constDecode, emptyProcess, scenarioRequests, CameraMetrics.add_frame]
    decide

end VideoStream

namespace Lifespan

/-- The shutdown loop shuts every component of its worklist down in list
order, collecting one record each, and never propagates an error. -/
theorem shutdown_loop_spec (l : List Component)
    (acc : List ShutdownRecord) :
    shutdown_loop l acc =
      Except.ok (acc ++ l.map
        (fun c => { name := c.name, succeeded := !c.shutdownRaises })) := by
  induction l generalizing acc with
  | nil => simp [shutdown_loop]
  | cons c rest ih =>
      simp [shutdown_loop, shutdown_component, ih]

/-- C5: shutdown_all runs shutdown on the components in the exact reverse
of the flattened instantiation order (literal LIFO over the component
list, not batch-by-batch reversal), and completes for every component —
including each component after one whose shutdown() raises (such a
component's record is merely marked unsuccessful). -/
theorem claim5_shutdown_reverse_order (components : List Component) :
    shutdown_all components =
      Except.ok (components.reverse.map
        (fun c => { name := c.name, succeeded := !c.shutdownRaises })) := by
  rw [shutdown_all, shutdown_loop_spec]
  simp

end Lifespan

namespace Health

/-- C6: get_overall_status aggregation order. Unhealthy if any registered
component is unhealthy; otherwise degraded if any is degraded; otherwise
healthy if all are healthy; otherwise unknown; and with no registered
components the result is unknown. In particular \x7bhealthy, degraded\x7d
aggregates to degraded and \x7bhealthy, unhealthy, degraded\x7d to
unhealthy. -/
theorem claim6_overall_status (components : HealthComponents) :
    (components = [] → get_overall_status components =
      HealthStatus.unknown) ∧
    ((∃ p ∈ components, p.2 = HealthStatus.unhealthy) →
      get_overall_status components = HealthStatus.unhealthy) ∧
    (¬ (∃ p ∈ components, p.2 = HealthStatus.unhealthy) →
      (∃ p ∈ components, p.2 = HealthStatus.degraded) →
      get_overall_status components = HealthStatus.degraded) ∧
    (components ≠ [] → (∀ p ∈ components, p.2 = HealthStatus.healthy) →
      get_overall_status components = HealthStatus.healthy) ∧
    (¬ (∃ p ∈ components, p.2 = HealthStatus.unhealthy) →
      ¬ (∃ p ∈ components, p.2 = HealthStatus.degraded) →
      ¬ (∀ p ∈ components, p.2 = HealthStatus.healthy) →
      get_overall_status components = HealthStatus.unknown) ∧
    get_overall_status
      [("a", HealthStatus.healthy), ("b", HealthStatus.degraded)] =
      HealthStatus.degraded ∧
    get_overall_status
      [("a", HealthStatus.healthy), ("b", HealthStatus.unhealthy),
       ("c", HealthStatus.degraded)] = HealthStatus.unhealthy := by
  refine ⟨?_, ?_, ?_, ?_, ?_, by decide, by decide⟩
  · intro h
    subst h
    rfl
  · rintro ⟨p, hp, hps⟩
    have hne : components.isEmpty = false := by
      cases components
      · cases hp
      · rfl
    have hany : (components.map Prod.snd).any
        (fun s => s = HealthStatus.unhealthy) = true := by
      simp only [List.any_eq_true]
      exact ⟨p.2, List.mem_map_of_mem _ hp, by simp [hps]⟩
    simp [get_overall_status, hne, hany]
  · intro hnu
    rintro ⟨p, hp, hps⟩
    have hne : components.isEmpty = false := by
      cases components
      · cases hp
      · rfl
    have hanyU : (components.map Prod.snd).any
        (fun s => s = HealthStatus.unhealthy) = false := by
      rw [← Bool.not_eq_true, List.any_eq_true]
      rintro ⟨s, hs, hsd⟩
      rcases List.mem_map.mp hs with ⟨q, hq, hqs⟩
      exact hnu ⟨q, hq, by
        rw [hqs]
        exact of_decide_eq_true hsd⟩
    have hanyD : (components.map Prod.snd).any
        (fun s => s = HealthStatus.degraded) = true := by
      simp only [List.any_eq_true]
      exact ⟨p.2, List.mem_map_of_mem _ hp, by simp [hps]⟩
    simp [get_overall_status, hne, hanyU, hanyD]
  · intro hne hall
    have hne' : components.isEmpty = false := by
      cases components
      · exact absurd rfl hne
      · rfl
    have hanyU : (components.map Prod.snd).any
        (fun s => s = HealthStatus.unhealthy) = false := by
      rw [← Bool.not_eq_true, List.any_eq_true]
      rintro ⟨s, hs, hsd⟩
      rcases List.mem_map.mp hs with ⟨q, hq, hqs⟩
      have := hall q hq
      rw [hqs] at this
      rw [this] at hsd
      exact absurd (of_decide_eq_true hsd) (by decide)
    have hanyD : (components.map Prod.snd).any
        (fun s => s = HealthStatus.degraded) = false := by
      rw [← Bool.not_eq_true, List.any_eq_true]
      rintro ⟨s, hs, hsd⟩
      rcases List.mem_map.mp hs with ⟨q, hq, hqs⟩
      have := hall q hq
      rw [hqs] at this
      rw [this] at hsd
      exact absurd (of_decide_eq_true hsd) (by decide)
    have hallH : (components.map Prod.snd).all
        (fun s => s = HealthStatus.healthy) = true := by
      simp only [List.all_eq_true]
      rintro s hs
      rcases List.mem_map.mp hs with ⟨q, hq, hqs⟩
      simp [← hqs, hall q hq]
    simp [get_overall_status, hne', hanyU, hanyD, hallH]
  · intro hnu hnd hnh
    have hne' : components.isEmpty = false := by
      cases components with
      | nil => exact absurd (fun p hp => absurd hp (List.not_mem_nil p)) hnh
      | cons a l => rfl
    have hanyU : (components.map Prod.snd).any
        (fun s => s = HealthStatus.unhealthy) = false := by
      rw [← Bool.not_eq_true, List.any_eq_true]
      rintro ⟨s, hs, hsd⟩
      rcases List.mem_map.mp hs with ⟨q, hq, hqs⟩
      exact hnu ⟨q, hq, by
        rw [hqs]
        exact of_decide_eq_true hsd⟩
    have hanyD : (components.map Prod.snd).any
        (fun s => s = HealthStatus.degraded) = false := by
      rw [← Bool.not_eq_true, List.any_eq_true]
      rintro ⟨s, hs, hsd⟩
      rcases List.mem_map.mp hs with ⟨q, hq, hqs⟩
      exact hnd ⟨q, hq, by
        rw [hqs]
        exact of_decide_eq_true hsd⟩
    have hallH : (components.map Prod.snd).all
        (fun s => s = HealthStatus.healthy) = false := by
      rw [← Bool.not_eq_true, List.all_eq_true]
      intro hcontra
      exact hnh (fun q hq => by
        have := hcontra q.2 (List.mem_map_of_mem _ hq)
        exact of_decide_eq_true this)
    simp [get_overall_status, hne', hanyU, hanyD, hallH]

/-- Witness for C6 at concrete inputs: each aggregation branch applied to
an explicit registry. -/
theorem claim6_overall_status_witness :
    get_overall_status [] = HealthStatus.unknown ∧
    get_overall_status [("m", HealthStatus.unhealthy)] =
      HealthStatus.unhealthy ∧
    get_overall_status [("m", HealthStatus.degraded)] =
      HealthStatus.degraded ∧
    get_overall_status [("m", HealthStatus.healthy)] =
      HealthStatus.healthy ∧
    get_overall_status [("m", HealthStatus.unknown)] =
      HealthStatus.unknown := by
  refine ⟨?_, ?_, ?_, ?_, ?_⟩
  · exact (claim6_overall_status []).1 rfl
  · exact (claim6_overall_status [("m", HealthStatus.unhealthy)]).2.1
      ⟨("m", HealthStatus.unhealthy), by decide, rfl⟩
  · exact (claim6_overall_status [("m", HealthStatus.degraded)]).2.2.1
      (by rintro ⟨p, hp, hps⟩; rw [List.mem_singleton] at hp;
          subst hp; cases hps)
      ⟨("m", HealthStatus.degraded), by decide, rfl⟩
  · exact (claim6_overall_status [("m", HealthStatus.healthy)]).2.2.2.1
      (by decide)
      (by rintro p hp; rw [List.mem_singleton] at hp; subst hp; rfl)
  · exact (claim6_overall_status [("m", HealthStatus.unknown)]).2.2.2.2.1
      (by rintro ⟨p, hp, hps⟩; rw [List.mem_singleton] at hp;
          subst hp; cases hps)
      (by rintro ⟨p, hp, hps⟩; rw [List.mem_singleton] at hp;
          subst hp; cases hps)
      (by intro hcontra;
          have := hcontra ("m", HealthStatus.unknown) (by decide);
          cases this)

end Health


namespace FaceRec

/-- ratFloor agrees with the mathematical floor. -/
theorem ratFloor_eq (q : ℚ) : ratFloor q = ⌊q⌋ := Rat.floor_def.symm

/-- Python rounding never exceeds an integer upper bound of its argument. -/
theorem pyRound_le (q : ℚ) (d : ℤ) (h : q ≤ (d : ℚ)) : pyRound q ≤ d := by
  have hf : ⌊q⌋ ≤ d := by
    have := Int.floor_le_floor h
    rwa [Int.floor_intCast] at this
  have hgt : (1/2 : ℚ) ≤ q - ⌊q⌋ → ⌊q⌋ + 1 ≤ d := by
    intro hq
    by_contra hcon
    push_neg at hcon
    have hdq : ⌊q⌋ = d := le_antisymm hf (by omega)
    have hle : q - (d : ℚ) ≤ 0 := sub_nonpos.mpr h
    rw [hdq] at hq
    linarith
  rw [pyRound, ratFloor_eq]
  split
  · exact hf
  · split
    · next h1 h2 => exact hgt (le_of_lt h2)
    · split
      · exact hf
      · next h1 h2 h3 => exact hgt (le_of_not_lt h1)

/-- Python rounding of a nonnegative argument is nonnegative. -/
theorem pyRound_nonneg (q : ℚ) (h : 0 ≤ q) : 0 ≤ pyRound q := by
  have hf : (0 : ℤ) ≤ ⌊q⌋ := Int.floor_nonneg.mpr h
  rw [pyRound, ratFloor_eq]
  split
  · exact hf
  · split
    · omega
    · split
      · exact hf
      · omega

/-- Downscaling never pushes a below-minimum side above the minimum: if a
decoded side is below 40 pixels, the corresponding resized side still is. -/
theorem decode_and_resize_lt_min (h w : Nat) (maxDim : ℤ)
    (hsmall : h < 40 ∨ w < 40) :
    (decode_and_resize_dims h w maxDim).1 < 40 ∨
      (decode_and_resize_dims h w maxDim).2 < 40 := by
  unfold decode_and_resize_dims
  split
  · simpa using hsmall
  · next hcond =>
    dsimp only
    push_neg at hcond
    obtain ⟨hpos, hlt⟩ := hcond
    have hmaxpos : (0 : ℤ) < maxDim := by omega
    have hmxpos : (0 : ℚ) < ((max h w : Nat) : ℚ) := by
      have : (maxDim : ℚ) < ((max h w : Nat) : ℚ) := by
        exact_mod_cast hlt
      have h0 : (0 : ℚ) < (maxDim : ℚ) := by exact_mod_cast hmaxpos
      linarith
    have hscale : (maxDim : ℚ) / ((max h w : Nat) : ℚ) ≤ 1 := by
      rw [div_le_one hmxpos]
      exact le_of_lt (by exact_mod_cast hlt)
    have hscale0 : 0 ≤ (maxDim : ℚ) / ((max h w : Nat) : ℚ) :=
      div_nonneg (by exact_mod_cast le_of_lt hmaxpos) (le_of_lt hmxpos)
    have hdim : ∀ d : Nat, d < 40 →
        Nat.max 1 (pyRound ((d : ℚ) *
          ((maxDim : ℚ) / ((max h w : Nat) : ℚ)))).toNat < 40 := by
      intro d hd
      have hq : (d : ℚ) * ((maxDim : ℚ) / ((max h w : Nat) : ℚ)) ≤
          ((d : ℤ) : ℚ) := by
        have := mul_le_of_le_one_right
          (by exact_mod_cast Nat.zero_le d : (0:ℚ) ≤ (d:ℚ)) hscale
        simpa using this
      have hle := pyRound_le _ (d : ℤ) hq
      have htoNat : (pyRound ((d : ℚ) *
          ((maxDim : ℚ) / ((max h w : Nat) : ℚ)))).toNat ≤ d := by
        rw [Int.toNat_le]
        exact hle
      rw [Nat.max_lt]
      omega
    rcases hsmall with hh | hw
    · exact Or.inl (hdim h hh)
    · exact Or.inr (hdim w hw)

/-- C7 corrected: validation runs after decode-and-resize, so the bounds
apply to the resized image. detect_faces (and identically
extract_embeddings) accepts an image exactly when the post-resize pixel
count is at most 4096*4096 and both post-resize sides are at least 40;
and a decoded side below 40 always leads to rejection, since downscaling
cannot raise it above the minimum. -/
theorem claim7_image_bounds (h w : Nat) (maxOpt : Option ℤ) :
    (detect_faces_image_check {} h w maxOpt = Except.ok () ↔
      ((decode_and_resize_dims h w
          (resolve_max_dimension {} maxOpt)).1 *
        (decode_and_resize_dims h w
          (resolve_max_dimension {} maxOpt)).2 ≤ 4096 * 4096 ∧
       40 ≤ (decode_and_resize_dims h w
          (resolve_max_dimension {} maxOpt)).1 ∧
       40 ≤ (decode_and_resize_dims h w
          (resolve_max_dimension {} maxOpt)).2)) ∧
    (h < 40 ∨ w < 40 →
      ∃ msg, detect_faces_image_check {} h w maxOpt = Except.error msg) ∧
    extract_embeddings_image_check {} h w maxOpt =
      detect_faces_image_check {} h w maxOpt := by
  have hmax : ({} : ImageValidationLimits).MAX_PIXELS = 4096 * 4096 := rfl
  have hmin : ({} : ImageValidationLimits).MIN_DIMENSION = 40 := rfl
  refine ⟨?_, ?_, rfl⟩
  · show validate_image {}
        (decode_and_resize_dims h w (resolve_max_dimension {} maxOpt)).1
        (decode_and_resize_dims h w (resolve_max_dimension {} maxOpt)).2 =
        Except.ok () ↔ _
    unfold validate_image
    rw [hmax, hmin]
    split_ifs with h1 h2
    · constructor
      · intro hcon
        cases hcon
      · intro hcon
        omega
    · constructor
      · intro hcon
        cases hcon
      · intro hcon
        omega
    · constructor
      · intro _
        push_neg at h2
        omega
      · intro _
        rfl
  · intro hsm
    have hdims := decode_and_resize_lt_min h w
      (resolve_max_dimension {} maxOpt) hsm
    show ∃ msg, validate_image {}
        (decode_and_resize_dims h w (resolve_max_dimension {} maxOpt)).1
        (decode_and_resize_dims h w (resolve_max_dimension {} maxOpt)).2 =
        Except.error msg
    unfold validate_image
    rw [hmax, hmin]
    split_ifs with h1
    · exact ⟨_, rfl⟩
    · exact ⟨_, rfl⟩

/-- Witness for C7: a 100 by 100 image passes, a 30 by 100 image (side
below 40) is rejected. -/
theorem claim7_image_bounds_witness :
    detect_faces_image_check {} 100 100 none = Except.ok () ∧
    (∃ msg, detect_faces_image_check {} 30 100 none =
      Except.error msg) := by
  constructor
  · exact (claim7_image_bounds 100 100 none).1.mpr
      (by norm_num [decode_and_resize_dims, resolve_max_dimension])
  · exact (claim7_image_bounds 30 100 none).2.1 (Or.inl (by norm_num))

/-- C7 counterexample: a 5000 by 5000 image (25,000,000 pixels, above the
16,777,216-pixel hard maximum) is not rejected by detect_faces or
extract_embeddings under the default resize cap: it is first downscaled
to 1280 by 1280 and then passes validation. -/
theorem claim7_counterexample :
    5000 * 5000 > ({} : ImageValidationLimits).MAX_PIXELS ∧
    detect_faces_image_check {} 5000 5000 none = Except.ok () ∧
    extract_embeddings_image_check {} 5000 5000 none = Except.ok () := by
  have ht : Int.toNat 1280 = 1280 := rfl
  refine ⟨by norm_num [ImageValidationLimits.MAX_PIXELS], ?_, ?_⟩ <;>
  · norm_num [detect_faces_image_check, extract_embeddings_image_check,
      decode_validate, resolve_max_dimension, decode_and_resize_dims,
      pyRound, ratFloor_eq, Nat.max_def, validate_image, ht]

/-- process_frame bumps the instance frame counter by one and returns the
new counter value as the result's frame_id, on every path. -/
theorem process_frame_spec {Img : Type}
    (detect : Img → List (DetectedFace Img))
    (embed_batch : List Img → List (List ℚ)) (shape : Img → Nat × Nat)
    (st : ServiceState) (frame : Img) (cam : String) :
    (process_frame detect embed_batch shape st frame cam).2 =
      ⟨st.frame_counter + 1⟩ ∧
    (process_frame detect embed_batch shape st frame cam).1.frame_id =
      st.frame_counter + 1 := by
  refine ⟨?_, ?_⟩ <;>
  · simp only [process_frame]
    split <;> rfl

/-- Unfolding lemma for run_process_frames on a cons cell. -/
theorem run_process_frames_cons {Img : Type}
    (detect : Img → List (DetectedFace Img))
    (embed_batch : List Img → List (List ℚ)) (shape : Img → Nat × Nat)
    (st : ServiceState) (frame : Img) (cam : String)
    (rest : List (Img × String)) :
    run_process_frames detect embed_batch shape st ((frame, cam) :: rest) =
      ((process_frame detect embed_batch shape st frame cam).1 ::
        (run_process_frames detect embed_batch shape
          (process_frame detect embed_batch shape st frame cam).2 rest).1,
       (run_process_frames detect embed_batch shape
         (process_frame detect embed_batch shape st frame cam).2
         rest).2) := rfl

/-- Frame ids over a run: starting from any counter value, the i-th call
returns frame_id = counter + i + 1 and the final counter has advanced by
the number of calls. -/
theorem run_process_frames_spec {Img : Type}
    (detect : Img → List (DetectedFace Img))
    (embed_batch : List Img → List (List ℚ)) (shape : Img → Nat × Nat) :
    ∀ (calls : List (Img × String)) (st : ServiceState),
      (run_process_frames detect embed_batch shape st calls).2 =
        ⟨st.frame_counter + calls.length⟩ ∧
      ∀ i, i < calls.length →
        ((run_process_frames detect embed_batch shape st
            calls).1.get? i).map FrameResult.frame_id =
          some (st.frame_counter + i + 1) := by
  intro calls
  induction calls with
  | nil =>
      intro st
      constructor
      · rfl
      · intro i hi
        exact absurd hi (Nat.not_lt_zero i)
  | cons c rest ih =>
      intro st
      obtain ⟨frame, cam⟩ := c
      have hstep := process_frame_spec detect embed_batch shape st frame cam
      rw [run_process_frames_cons, hstep.1]
      constructor
      · rw [(ih ⟨st.frame_counter + 1⟩).1]
        show ServiceState.mk _ = ServiceState.mk _
        rw [ServiceState.mk.injEq]
        show st.frame_counter + 1 + rest.length =
          st.frame_counter + (rest.length + 1)
        omega
      · intro i hi
        cases i with
        | zero =>
            simp [hstep.2]
        | succ n =>
            have hrec := (ih ⟨st.frame_counter + 1⟩).2 n
              (by simpa using Nat.lt_of_succ_lt_succ hi)
            simp only [List.get?_cons_succ]
            rw [hrec]
            dsimp only
            congr 1
            omega

/-- C10: process_frame mutates the single instance-wide frame counter:
each call increments it by one (so process_frame is not stateless) and
returns the new value as the result's frame_id, for any camera_id; hence
after n calls on one fresh service instance, with any mix of camera ids,
the n-th result carries frame_id = n — a global sequence unrelated to any
client-assigned frame id. -/
theorem claim10_frame_counter {Img : Type}
    (detect : Img → List (DetectedFace Img))
    (embed_batch : List Img → List (List ℚ)) (shape : Img → Nat × Nat) :
    (∀ (st : ServiceState) (frame : Img) (cam : String),
      (process_frame detect embed_batch shape st frame cam).2 =
        ⟨st.frame_counter + 1⟩ ∧
      (process_frame detect embed_batch shape st frame cam).1.frame_id =
        st.frame_counter + 1) ∧
    (∀ (calls : List (Img × String)),
      (run_process_frames detect embed_batch shape ⟨0⟩ calls).2 =
        ⟨calls.length⟩ ∧
      ∀ i, i < calls.length →
        ((run_process_frames detect embed_batch shape ⟨0⟩
            calls).1.get? i).map FrameResult.frame_id = some (i + 1)) := by
  constructor
  · intro st frame cam
    exact process_frame_spec detect embed_batch shape st frame cam
  · intro calls
    have h := run_process_frames_spec detect embed_batch shape calls ⟨0⟩
    simpa using h

/-- Witness for C10 at concrete inputs: two calls with different camera
ids on a fresh instance; the second result carries frame_id = 2. -/
theorem claim10_frame_counter_witness :
    ((run_process_frames (fun _ : Unit => ([] : List (DetectedFace Unit)))
        (fun _ => []) (fun _ => (480, 640)) ⟨0⟩
        [((), "a"), ((), "b")]).1.get? 1).map FrameResult.frame_id =
      some 2 := by
  exact ((claim10_frame_counter (fun _ : Unit => [])
    (fun _ => []) (fun _ => (480, 640))).2
    [((), "a"), ((), "b")]).2 1 (by norm_num)

end FaceRec


namespace Registry

/-- Lookup fails exactly for unregistered names. -/
theorem lookupA_eq_none_iff {α : Type} (m : List (String × α))
    (k : String) : lookupA m k = none ↔ k ∉ m.map Prod.fst := by
  induction m with
  | nil => simp [lookupA]
  | cons p rest ih =>
      obtain ⟨a, b⟩ := p
      by_cases ha : a = k
      · subst ha
        simp [lookupA]
      · simp [lookupA, ha, ih, Ne.symm ha]

/-- A successful lookup returns a stored pair. -/
theorem lookupA_mem {α : Type} (m : List (String × α)) (k : String)
    (v : α) (h : lookupA m k = some v) : (k, v) ∈ m := by
  induction m with
  | nil => cases h
  | cons p rest ih =>
      obtain ⟨a, b⟩ := p
      by_cases ha : a = k
      · subst ha
        rw [lookupA, if_pos rfl] at h
        cases h
        exact List.mem_cons_self _ _
      · rw [lookupA, if_neg ha] at h
        exact List.mem_cons_of_mem _ (ih h)

/-- Unregistered names have no dependencies. -/
theorem depsOf_of_not_mem (cm : ComponentMap) (n : String)
    (h : n ∉ cm.map Prod.fst) : depsOf cm n = [] := by
  rw [depsOf, (lookupA_eq_none_iff cm n).mpr h]
  rfl

/-- Every edge source is a registered name. -/
theorem edge_source_mem (cm : ComponentMap) (a b : String)
    (h : Edge cm a b) : a ∈ cm.map Prod.fst := by
  by_contra hcon
  rw [Edge, depsOf_of_not_mem cm a hcon] at h
  cases h

/-- When all dependencies are registered, every dependency list stays
inside the registered names. -/
theorem depsOf_subset_keys (cm : ComponentMap)
    (hreg : allDepsRegistered cm) (n d : String) (hd : d ∈ depsOf cm n) :
    d ∈ cm.map Prod.fst := by
  rcases hl : lookupA cm n with _ | deps
  · rw [depsOf, hl] at hd
    cases hd
  · rw [depsOf, hl] at hd
    exact hreg (n, deps) (lookupA_mem cm n deps hl) d hd

/-- firstMissing finds nothing exactly when every declared dependency of
every entry is registered in the supplied name list. -/
theorem firstMissing_eq_none_iff (names : List String) :
    ∀ cm : ComponentMap,
      firstMissing names cm = none ↔ ∀ p ∈ cm, ∀ d ∈ p.2, d ∈ names := by
  intro cm
  induction cm with
  | nil => simp [firstMissing]
  | cons p rest ih =>
      obtain ⟨n, deps⟩ := p
      rw [firstMissing]
      rcases hf : deps.find? (fun d => ! names.contains d) with _ | d
      · have hall := List.find?_eq_none.mp hf
        simp only [ih]
        constructor
        · intro hrest q hq
          rcases List.mem_cons.mp hq with rfl | hq'
          · intro d hd
            have hb := hall d hd
            have hb2 : names.contains d = true := by
              cases hcd : names.contains d
              · exact absurd (show (!names.contains d) = true by
                  rw [hcd]
                  rfl) hb
              · rfl
            exact List.elem_iff.mp hb2
          · exact hrest q hq'
        · intro hallq q hq
          exact hallq q (List.mem_cons_of_mem _ hq)
      · constructor
        · intro hcon
          cases hcon
        · intro hallq
          exfalso
          have hmem := List.mem_of_find?_eq_some hf
          have hpred := List.find?_some hf
          have hd : d ∈ names :=
            hallq (n, deps) (List.mem_cons_self _ _) d hmem
          have helem := List.elem_iff.mpr hd
          rw [Bool.not_eq_true'] at hpred
          rw [show names.contains d = List.elem d names from rfl] at hpred
          rw [hpred] at helem
          cases helem

/-- validate_dependencies returns True or raises. -/
theorem validate_dependencies_cases (cm : ComponentMap) :
    validate_dependencies cm = Except.ok true ∨
      ∃ e, validate_dependencies cm = Except.error e := by
  rw [validate_dependencies]
  rcases firstMissing (cm.map Prod.fst) cm with _ | p
  · rcases check_circular_dependencies cm with e | u
    · exact Or.inr ⟨e, rfl⟩
    · exact Or.inl rfl
  · exact Or.inr ⟨_, rfl⟩


/-- Equation: visit with no fuel. -/
theorem visit_zero (cm : ComponentMap) (node : String)
    (visited rec_stack path : List String) :
    visit cm 0 node visited rec_stack path =
      Except.error "recursion depth exceeded" := rfl

/-- Equation: visit with fuel. -/
theorem visit_succ (cm : ComponentMap) (fuel : Nat) (node : String)
    (visited rec_stack path : List String) :
    visit cm (fuel + 1) node visited rec_stack path =
      visitDeps (visit cm fuel) (rec_stack ++ [node]) (path ++ [node])
        (depsOf cm node) (visited ++ [node]) := rfl

/-- Equation: visitDeps on an empty dependency list. -/
theorem visitDeps_nil (visitF :
      String → List String → List String → List String →
        Except String (List String))
    (rec_stack path visited : List String) :
    visitDeps visitF rec_stack path [] visited = Except.ok visited := rfl

/-- Equation: visitDeps on a cons cell. -/
theorem visitDeps_cons (visitF :
      String → List String → List String → List String →
        Except String (List String))
    (rec_stack path : List String) (dep : String)
    (rest visited : List String) :
    visitDeps visitF rec_stack path (dep :: rest) visited =
      (if dep ∉ visited then
        match visitF dep visited rec_stack path with
        | Except.error e => Except.error e
        | Except.ok visited' =>
            visitDeps visitF rec_stack path rest visited'
      else if dep ∈ rec_stack then
        Except.error ("Circular dependency detected: " ++
          cycleString path dep)
      else visitDeps visitF rec_stack path rest visited) := rfl

/-- The visited set only grows through the dependency loop. -/
theorem visitDeps_subset (visitF :
      String → List String → List String → List String →
        Except String (List String))
    (hmono : ∀ dep vis rs p vis',
      visitF dep vis rs p = Except.ok vis' → vis ⊆ vis') :
    ∀ (deps rec_stack path visited visited' : List String),
      visitDeps visitF rec_stack path deps visited = Except.ok visited' →
      visited ⊆ visited' := by
  intro deps
  induction deps with
  | nil =>
      intro rs p v v' h
      rw [visitDeps_nil] at h
      cases h
      exact fun _ hx => hx
  | cons dep rest ih =>
      intro rs p v v' h
      rw [visitDeps_cons] at h
      by_cases hdv : dep ∉ v
      · rw [if_pos hdv] at h
        rcases hvf : visitF dep v rs p with e | v2
        · rw [hvf] at h
          cases h
        · rw [hvf] at h
          exact fun x hx => ih rs p v2 v' h (hmono dep v rs p v2 hvf hx)
      · rw [if_neg hdv] at h
        by_cases hrs : dep ∈ rs
        · rw [if_pos hrs] at h
          cases h
        · rw [if_neg hrs] at h
          exact ih rs p v v' h

/-- The visited set only grows through visit. -/
theorem visit_subset (cm : ComponentMap) :
    ∀ (fuel : Nat) (node : String)
      (visited rec_stack path visited' : List String),
      visit cm fuel node visited rec_stack path = Except.ok visited' →
      visited ⊆ visited' := by
  intro fuel
  induction fuel with
  | zero =>
      intro n v rs p v' h
      rw [visit_zero] at h
      cases h
  | succ f ih =>
      intro n v rs p v' h
      rw [visit_succ] at h
      exact fun x hx => visitDeps_subset (visit cm f)
        (fun a b c d2 e2 f2 => ih a b c d2 e2 f2) _ _ _ _ _ h
        (List.mem_append_left _ hx)

/-- A successful visit leaves its node visited. -/
theorem visit_mem (cm : ComponentMap) (fuel : Nat) (node : String)
    (visited rec_stack path visited' : List String)
    (h : visit cm fuel node visited rec_stack path = Except.ok visited') :
    node ∈ visited' := by
  cases fuel with
  | zero =>
      rw [visit_zero] at h
      cases h
  | succ f =>
      rw [visit_succ] at h
      exact visitDeps_subset (visit cm f)
        (fun a b c d2 e2 f2 => visit_subset cm f a b c d2 e2 f2)
        _ _ _ _ _ h (List.mem_append_right _ (by simp))

/-- Anything reachable from a finished node is finished (closure of the
finished region under edges, extended along reflexive-transitive
reachability). -/
theorem closed_reach (cm : ComponentMap)
    (visited rec_stack : List String)
    (hC : Closed cm visited rec_stack) (a b : String)
    (ha : a ∈ visited) (ha2 : a ∉ rec_stack)
    (h : Relation.ReflTransGen (Edge cm) a b) :
    b ∈ visited ∧ b ∉ rec_stack := by
  induction h with
  | refl => exact ⟨ha, ha2⟩
  | tail hab hbc ih => exact hC _ ih.1 ih.2 _ hbc

/-- Invariant preservation through the dependency loop: assuming the
recursive visits preserve the invariants, a successful loop preserves
them and finishes every processed dependency off the stack. -/
theorem visitDeps_inv (cm : ComponentMap) (visitF :
      String → List String → List String → List String →
        Except String (List String))
    (hvF : ∀ dep vis rs p vis',
      visitF dep vis rs p = Except.ok vis' →
      vis ⊆ vis' ∧ dep ∈ vis' ∧
      (Closed cm vis rs → NoSelfCycle cm vis rs →
       (∀ x ∈ rs, x ∈ vis) → dep ∉ vis →
       Closed cm vis' rs ∧ NoSelfCycle cm vis' rs)) :
    ∀ (deps rec_stack path visited visited' : List String),
      visitDeps visitF rec_stack path deps visited = Except.ok visited' →
      Closed cm visited rec_stack → NoSelfCycle cm visited rec_stack →
      (∀ x ∈ rec_stack, x ∈ visited) →
      Closed cm visited' rec_stack ∧ NoSelfCycle cm visited' rec_stack ∧
      (∀ x ∈ rec_stack, x ∈ visited') ∧
      (∀ d ∈ deps, d ∈ visited' ∧ d ∉ rec_stack) := by
  intro deps
  induction deps with
  | nil =>
      intro rs p v v' h hC hN hrs
      rw [visitDeps_nil] at h
      cases h
      exact ⟨hC, hN, hrs, fun d hd => absurd hd (List.not_mem_nil d)⟩
  | cons dep rest ih =>
      intro rs p v v' h hC hN hrs
      rw [visitDeps_cons] at h
      by_cases hdv : dep ∉ v
      · rw [if_pos hdv] at h
        rcases hvf : visitF dep v rs p with e | v2
        · rw [hvf] at h
          cases h
        · rw [hvf] at h
          obtain ⟨hsub2, hdep2, hinv2⟩ := hvF dep v rs p v2 hvf
          obtain ⟨hC2, hN2⟩ := hinv2 hC hN hrs hdv
          have hrs2 : ∀ x ∈ rs, x ∈ v2 := fun x hx => hsub2 (hrs x hx)
          obtain ⟨hC', hN', hrs', hdeps'⟩ := ih rs p v2 v' h hC2 hN2 hrs2
          refine ⟨hC', hN', hrs', ?_⟩
          intro d hd
          rcases List.mem_cons.mp hd with rfl | hd'
          · refine ⟨?_, ?_⟩
            · exact visitDeps_subset visitF
                (fun a b c d2 e2 f2 => (hvF a b c d2 e2 f2).1)
                rest rs p v2 v' h hdep2
            · intro hdrs
              exact hdv (hrs d hdrs)
          · exact hdeps' d hd'
      · rw [if_neg hdv] at h
        push_neg at hdv
        by_cases hdrs : dep ∈ rs
        · rw [if_pos hdrs] at h
          cases h
        · rw [if_neg hdrs] at h
          obtain ⟨hC', hN', hrs', hdeps'⟩ := ih rs p v v' h hC hN hrs
          refine ⟨hC', hN', hrs', ?_⟩
          intro d hd
          rcases List.mem_cons.mp hd with rfl | hd'
          · exact ⟨visitDeps_subset visitF
              (fun a b c d2 e2 f2 => (hvF a b c d2 e2 f2).1)
              rest rs p v v' h hdv, hdrs⟩
          · exact hdeps' d hd'

/-- Success soundness of visit: a successful visit grows the visited set,
contains its node, and preserves the finished-region invariants with
respect to the caller's recursion stack. -/
theorem visit_inv (cm : ComponentMap) :
    ∀ (fuel : Nat) (node : String)
      (visited rec_stack path visited' : List String),
      visit cm fuel node visited rec_stack path = Except.ok visited' →
      visited ⊆ visited' ∧ node ∈ visited' ∧
      (Closed cm visited rec_stack → NoSelfCycle cm visited rec_stack →
       (∀ x ∈ rec_stack, x ∈ visited) → node ∉ visited →
       Closed cm visited' rec_stack ∧ NoSelfCycle cm visited' rec_stack) := by
  intro fuel
  induction fuel with
  | zero =>
      intro n v rs p v' h
      rw [visit_zero] at h
      cases h
  | succ f ih =>
      intro node v rs p v' h
      rw [visit_succ] at h
      refine ⟨?_, ?_, ?_⟩
      · exact fun x hx => visitDeps_subset (visit cm f)
          (fun a b c d2 e2 f2 => visit_subset cm f a b c d2 e2 f2)
          _ _ _ _ _ h (List.mem_append_left _ hx)
      · exact visitDeps_subset (visit cm f)
          (fun a b c d2 e2 f2 => visit_subset cm f a b c d2 e2 f2)
          _ _ _ _ _ h (List.mem_append_right _ (by simp))
      · intro hC hN hrs hnv
        have hC0 : Closed cm (v ++ [node]) (rs ++ [node]) := by
          intro m hm hmrs d hE
          have hm' : m ∈ v := by
            rcases List.mem_append.mp hm with h1 | h1
            · exact h1
            · exfalso
              rw [List.mem_singleton] at h1
              subst h1
              exact hmrs (List.mem_append_right _ (by simp))
          have hmrs0 : m ∉ rs := fun hx => hmrs (List.mem_append_left _ hx)
          obtain ⟨hd1, hd2⟩ := hC m hm' hmrs0 d hE
          refine ⟨List.mem_append_left _ hd1, ?_⟩
          intro hx
          rcases List.mem_append.mp hx with h2 | h2
          · exact hd2 h2
          · rw [List.mem_singleton] at h2
            subst h2
            exact hnv hd1
        have hN0 : NoSelfCycle cm (v ++ [node]) (rs ++ [node]) := by
          intro m hm hmrs
          have hm' : m ∈ v := by
            rcases List.mem_append.mp hm with h1 | h1
            · exact h1
            · exfalso
              rw [List.mem_singleton] at h1
              subst h1
              exact hmrs (List.mem_append_right _ (by simp))
          exact hN m hm' (fun hx => hmrs (List.mem_append_left _ hx))
        have hrs0 : ∀ x ∈ rs ++ [node], x ∈ v ++ [node] := by
          intro x hx
          rcases List.mem_append.mp hx with h1 | h1
          · exact List.mem_append_left _ (hrs x h1)
          · exact List.mem_append_right _ h1
        obtain ⟨hC1, hN1, hrs1, hdeps1⟩ := visitDeps_inv cm (visit cm f)
          (fun a b c d2 e2 f2 => ih a b c d2 e2 f2) (depsOf cm node)
          (rs ++ [node]) (p ++ [node]) (v ++ [node]) v' h hC0 hN0 hrs0
        constructor
        · intro m hm hmrs d hE
          by_cases hmn : m = node
          · subst hmn
            obtain ⟨hd1, hd2⟩ := hdeps1 d hE
            exact ⟨hd1, fun hx => hd2 (List.mem_append_left _ hx)⟩
          · have hmrs1 : m ∉ rs ++ [node] := by
              intro hx
              rcases List.mem_append.mp hx with h1 | h1
              · exact hmrs h1
              · rw [List.mem_singleton] at h1
                exact hmn h1
            obtain ⟨hd1, hd2⟩ := hC1 m hm hmrs1 d hE
            exact ⟨hd1, fun hx => hd2 (List.mem_append_left _ hx)⟩
        · intro m hm hmrs hcyc
          by_cases hmn : m = node
          · subst hmn
            obtain ⟨b, hab, hbm⟩ := Relation.TransGen.head'_iff.mp hcyc
            obtain ⟨hb1, hb2⟩ := hdeps1 b hab
            have hreach := closed_reach cm v' (rs ++ [m]) hC1 b m hb1 hb2 hbm
            exact hreach.2 (List.mem_append_right _ (by simp))
          · have hmrs1 : m ∉ rs ++ [node] := by
              intro hx
              rcases List.mem_append.mp hx with h1 | h1
              · exact hmrs h1
              · rw [List.mem_singleton] at h1
                exact hmn h1
            exact hN1 m hm hmrs1 hcyc

/-- Equation: the top loop on an empty worklist. -/
theorem checkTop_nil (cm : ComponentMap) (fuel : Nat)
    (visited : List String) :
    checkTop cm fuel [] visited = Except.ok () := rfl

/-- Equation: the top loop on a cons cell. -/
theorem checkTop_cons (cm : ComponentMap) (fuel : Nat) (n : String)
    (rest visited : List String) :
    checkTop cm fuel (n :: rest) visited =
      (if n ∉ visited then
        match visit cm fuel n visited [] [] with
        | Except.error e => Except.error e
        | Except.ok visited' => checkTop cm fuel rest visited'
      else checkTop cm fuel rest visited) := rfl

/-- If the whole top loop succeeds, every name on its worklist is free of
directed cycles through itself. -/
theorem checkTop_sound (cm : ComponentMap) (fuel : Nat) :
    ∀ (names visited : List String),
      Closed cm visited [] → NoSelfCycle cm visited [] →
      checkTop cm fuel names visited = Except.ok () →
      ∀ n ∈ names, ¬ Relation.TransGen (Edge cm) n n := by
  intro names
  induction names with
  | nil =>
      intro _ _ _ _ n hn
      exact absurd hn (List.not_mem_nil n)
  | cons nm rest ih =>
      intro visited hC hN h n hn
      rw [checkTop_cons] at h
      by_cases hv : nm ∉ visited
      · rw [if_pos hv] at h
        rcases hvisit : visit cm fuel nm visited [] [] with e | visited'
        · rw [hvisit] at h
          cases h
        · rw [hvisit] at h
          obtain ⟨_, hmem, hinv⟩ :=
            visit_inv cm fuel nm visited [] [] visited' hvisit
          obtain ⟨hC', hN'⟩ := hinv hC hN
            (fun x hx => absurd hx (List.not_mem_nil x)) hv
          rcases List.mem_cons.mp hn with rfl | hn'
          · exact hN' n hmem (List.not_mem_nil n)
          · exact ih visited' hC' hN' h n hn'
      · rw [if_neg hv] at h
        push_neg at hv
        rcases List.mem_cons.mp hn with rfl | hn'
        · exact hN n hv (List.not_mem_nil n)
        · exact ih visited hC hN h n hn'

/-- A successful cycle check means the dependency graph is acyclic. -/
theorem check_circular_ok_acyclic (cm : ComponentMap)
    (h : check_circular_dependencies cm = Except.ok ()) : Acyclic cm := by
  intro n hcyc
  by_cases hn : n ∈ cm.map Prod.fst
  · exact checkTop_sound cm (cm.length + 1) (cm.map Prod.fst) []
      (fun m hm => absurd hm (List.not_mem_nil m))
      (fun m hm => absurd hm (List.not_mem_nil m)) h n hn hcyc
  · obtain ⟨b, hab, _⟩ := Relation.TransGen.head'_iff.mp hcyc
    rw [Edge, depsOf_of_not_mem cm n hn] at hab
    cases hab


/-- Every member of an edge-chain ending in a node reaches that node. -/
theorem chain_suffix_rtg (cm : ComponentMap) :
    ∀ (l : List String) (dep node : String),
      List.Chain' (Edge cm) (l ++ [node]) → dep ∈ l ++ [node] →
      Relation.ReflTransGen (Edge cm) dep node := by
  intro l
  induction l with
  | nil =>
      intro dep node _ hdep
      rw [List.nil_append, List.mem_singleton] at hdep
      subst hdep
      exact Relation.ReflTransGen.refl
  | cons a l ih =>
      intro dep node hch hdep
      have hch0 : List.Chain' (Edge cm) (a :: (l ++ [node])) := by
        simpa using hch
      have hch' : List.Chain' (Edge cm) (l ++ [node]) := hch0.tail
      rw [List.cons_append] at hdep
      rcases List.mem_cons.mp hdep with rfl | hdep'
      · cases l with
        | nil =>
            have hE : Edge cm dep node := (List.chain'_cons.mp hch0).1
            exact Relation.ReflTransGen.single hE
        | cons b l2 =>
            have hab : Edge cm dep b := (List.chain'_cons.mp hch0).1
            exact Relation.ReflTransGen.head hab
              (ih b node hch' (by simp))
      · exact ih dep node hch' hdep'

/-- A stack member that the current node points back to closes a cycle. -/
theorem cycle_of_mem_chain (cm : ComponentMap) (p : List String)
    (dep node : String) (hch : List.Chain' (Edge cm) (p ++ [node]))
    (hdep : dep ∈ p ++ [node]) (hE : Edge cm node dep) :
    Relation.TransGen (Edge cm) dep dep :=
  Relation.TransGen.tail' (chain_suffix_rtg cm p dep node hch hdep) hE

/-- Extending an edge-chain by one dependency of its last node. -/
theorem chain_snoc (cm : ComponentMap) (p : List String)
    (node dep : String) (hch : List.Chain' (Edge cm) (p ++ [node]))
    (hE : Edge cm node dep) :
    List.Chain' (Edge cm) ((p ++ [node]) ++ [dep]) := by
  rw [List.chain'_append]
  refine ⟨hch, List.chain'_singleton dep, ?_⟩
  intro x hx y hy
  rw [List.getLast?_concat] at hx
  cases hx
  cases hy
  exact hE

/-- Growing the visited set shrinks the unvisited-key count. -/
theorem card_diff_mono (keys v v2 : List String) (hsub : v ⊆ v2) :
    (keys.toFinset \ v2.toFinset).card ≤
      (keys.toFinset \ v.toFinset).card := by
  apply Finset.card_le_card
  intro x hx
  rw [Finset.mem_sdiff] at hx ⊢
  refine ⟨hx.1, fun hcon => hx.2 ?_⟩
  rw [List.mem_toFinset] at hcon ⊢
  exact hsub hcon

/-- Totality of the dependency loop on an acyclic, fully registered
graph: assuming the recursive visits succeed, so does the loop. -/
theorem visitDeps_total (cm : ComponentMap) (g : Nat)
    (hacyc : Acyclic cm) (hreg : allDepsRegistered cm)
    (hvT : ∀ (node : String) (visited path : List String),
      node ∈ cm.map Prod.fst → node ∉ visited →
      ((cm.map Prod.fst).toFinset \ visited.toFinset).card ≤ g →
      List.Chain' (Edge cm) (path ++ [node]) →
      ∃ visited',
        visit cm g node visited path path = Except.ok visited' ∧
          visited ⊆ visited') :
    ∀ (deps p0 : List String) (node : String) (visited : List String),
      (∀ d ∈ deps, d ∈ depsOf cm node) →
      List.Chain' (Edge cm) (p0 ++ [node]) →
      ((cm.map Prod.fst).toFinset \ visited.toFinset).card ≤ g →
      ∃ visited',
        visitDeps (visit cm g) (p0 ++ [node]) (p0 ++ [node]) deps
            visited = Except.ok visited' ∧ visited ⊆ visited' := by
  intro deps
  induction deps with
  | nil =>
      intro p0 node v _ _ _
      exact ⟨v, visitDeps_nil _ _ _ _, fun _ hx => hx⟩
  | cons dep rest ih =>
      intro p0 node v hdeps hch hcard
      have hdepnode : dep ∈ depsOf cm node :=
        hdeps dep (List.mem_cons_self _ _)
      by_cases hdv : dep ∈ v
      · have hnotrs : dep ∉ p0 ++ [node] := by
          intro hin
          exact hacyc dep (cycle_of_mem_chain cm p0 dep node hch hin
            hdepnode)
        obtain ⟨v', hok, hsub⟩ := ih p0 node v
          (fun d hd => hdeps d (List.mem_cons_of_mem _ hd)) hch hcard
        refine ⟨v', ?_, hsub⟩
        rw [visitDeps_cons, if_neg (fun hcon => hcon hdv), if_neg hnotrs]
        exact hok
      · have hdk : dep ∈ cm.map Prod.fst :=
          depsOf_subset_keys cm hreg node dep hdepnode
        have hch2 : List.Chain' (Edge cm) ((p0 ++ [node]) ++ [dep]) :=
          chain_snoc cm p0 node dep hch hdepnode
        obtain ⟨v2, hok2, hsub2⟩ :=
          hvT dep v (p0 ++ [node]) hdk hdv hcard hch2
        have hcard2 :
            ((cm.map Prod.fst).toFinset \ v2.toFinset).card ≤ g :=
          le_trans (card_diff_mono (cm.map Prod.fst) v v2 hsub2) hcard
        obtain ⟨v', hok', hsub'⟩ := ih p0 node v2
          (fun d hd => hdeps d (List.mem_cons_of_mem _ hd)) hch hcard2
        refine ⟨v', ?_, fun x hx => hsub' (hsub2 hx)⟩
        rw [visitDeps_cons, if_pos hdv, hok2]
        exact hok'

/-- Totality of visit on an acyclic, fully registered graph with enough
fuel. -/
theorem visit_total (cm : ComponentMap) (hacyc : Acyclic cm)
    (hreg : allDepsRegistered cm) :
    ∀ (fuel : Nat) (node : String) (visited path : List String),
      node ∈ cm.map Prod.fst → node ∉ visited →
      ((cm.map Prod.fst).toFinset \ visited.toFinset).card ≤ fuel →
      List.Chain' (Edge cm) (path ++ [node]) →
      ∃ visited',
        visit cm fuel node visited path path = Except.ok visited' ∧
          visited ⊆ visited' := by
  intro fuel
  induction fuel with
  | zero =>
      intro node v p hk hnv hcard _
      exfalso
      have hmem : node ∈ (cm.map Prod.fst).toFinset \ v.toFinset := by
        rw [Finset.mem_sdiff, List.mem_toFinset, List.mem_toFinset]
        exact ⟨hk, hnv⟩
      have := Finset.card_pos.mpr ⟨node, hmem⟩
      omega
  | succ f ih =>
      intro node v p hk hnv hcard hch
      have hmem : node ∈ (cm.map Prod.fst).toFinset \ v.toFinset := by
        rw [Finset.mem_sdiff, List.mem_toFinset, List.mem_toFinset]
        exact ⟨hk, hnv⟩
      have hcard2 : ((cm.map Prod.fst).toFinset \
          (v ++ [node]).toFinset).card ≤ f := by
        have hsub : (cm.map Prod.fst).toFinset \ (v ++ [node]).toFinset ⊆
            ((cm.map Prod.fst).toFinset \ v.toFinset).erase node := by
          intro x hx
          rw [Finset.mem_sdiff, List.toFinset_append,
            Finset.mem_union] at hx
          push_neg at hx
          rw [Finset.mem_erase, Finset.mem_sdiff]
          refine ⟨?_, hx.1, hx.2.1⟩
          intro hxeq
          subst hxeq
          exact hx.2.2 (by simp)
        have h1 := Finset.card_le_card hsub
        rw [Finset.card_erase_of_mem hmem] at h1
        omega
      obtain ⟨v', hok, hsub⟩ := visitDeps_total cm f hacyc hreg
        (fun n2 v2 p2 a b c d => ih n2 v2 p2 a b c d)
        (depsOf cm node) p node (v ++ [node])
        (fun d hd => hd) hch hcard2
      refine ⟨v', ?_, fun x hx => hsub (List.mem_append_left _ hx)⟩
      rw [visit_succ]
      exact hok

/-- Totality of the top loop on an acyclic, fully registered graph. -/
theorem checkTop_total (cm : ComponentMap) (fuel : Nat)
    (hacyc : Acyclic cm) (hreg : allDepsRegistered cm) :
    ∀ (names visited : List String),
      (∀ n ∈ names, n ∈ cm.map Prod.fst) →
      ((cm.map Prod.fst).toFinset \ visited.toFinset).card ≤ fuel →
      checkTop cm fuel names visited = Except.ok () := by
  intro names
  induction names with
  | nil =>
      intro v _ _
      exact checkTop_nil cm fuel v
  | cons nm rest ih =>
      intro v hnames hcard
      rw [checkTop_cons]
      by_cases hv : nm ∉ v
      · rw [if_pos hv]
        obtain ⟨v', hok, hsub⟩ := visit_total cm hacyc hreg fuel nm v []
          (hnames nm (List.mem_cons_self _ _)) hv hcard
          (by simp)
        rw [hok]
        exact ih v' (fun n hn => hnames n (List.mem_cons_of_mem _ hn))
          (le_trans (card_diff_mono (cm.map Prod.fst) v v' hsub) hcard)
      · rw [if_neg hv]
        exact ih v (fun n hn => hnames n (List.mem_cons_of_mem _ hn))
          hcard

/-- On an acyclic, fully registered graph the cycle check succeeds. -/
theorem check_circular_total (cm : ComponentMap) (hacyc : Acyclic cm)
    (hreg : allDepsRegistered cm) :
    check_circular_dependencies cm = Except.ok () := by
  rw [check_circular_dependencies]
  apply checkTop_total cm (cm.length + 1) hacyc hreg (cm.map Prod.fst) []
    (fun n hn => hn)
  rw [List.toFinset_nil, Finset.sdiff_empty]
  have h1 := List.toFinset_card_le (cm.map Prod.fst)
  rw [List.length_map] at h1
  omega

/-- C8: validate_dependencies succeeds (returning True) exactly when
every declared dependency is registered and the dependency graph is
acyclic; otherwise it raises a configuration error (a missing dependency
is reported first, else the cycle found by the depth-first traversal). In
particular, the registry where A depends on B and B depends on A fails
deterministically with the reported cycle, and a linear registry
validates. -/
theorem claim8_validate_dependencies (cm : ComponentMap) :
    (validate_dependencies cm = Except.ok true ↔
      allDepsRegistered cm ∧ Acyclic cm) ∧
    (¬ (allDepsRegistered cm ∧ Acyclic cm) →
      ∃ e, validate_dependencies cm = Except.error e) ∧
    validate_dependencies cycleRegistry =
      Except.error "Circular dependency detected: A -> B -> A" ∧
    validate_dependencies lineRegistry = Except.ok true := by
  have hmain : validate_dependencies cm = Except.ok true ↔
      allDepsRegistered cm ∧ Acyclic cm := by
    constructor
    · intro h
      rw [validate_dependencies] at h
      rcases hfm : firstMissing (cm.map Prod.fst) cm with _ | pr
      · rw [hfm] at h
        rcases hcc : check_circular_dependencies cm with e | u
        · rw [hcc] at h
          cases h
        · refine ⟨?_, ?_⟩
          · intro p hp d hd
            exact ((firstMissing_eq_none_iff (cm.map Prod.fst) cm).mp
              hfm) p hp d hd
          · apply check_circular_ok_acyclic
            rw [hcc]
      · rw [hfm] at h
        cases h
    · rintro ⟨hreg, hacyc⟩
      rw [validate_dependencies,
        (firstMissing_eq_none_iff (cm.map Prod.fst) cm).mpr hreg,
        check_circular_total cm hacyc hreg]
  refine ⟨hmain, ?_, ?_, ?_⟩
  · intro hno
    rcases validate_dependencies_cases cm with hok | herr
    · exact absurd (hmain.mp hok) hno
    · exact herr
  · rfl
  · rfl

/-- Witness for C8: the linear registry satisfies both hypotheses of the
success direction, and the A-B cycle discharges the failure direction. -/
theorem claim8_validate_dependencies_witness :
    (allDepsRegistered lineRegistry ∧ Acyclic lineRegistry) ∧
    (∃ e, validate_dependencies cycleRegistry = Except.error e) := by
  constructor
  · exact (claim8_validate_dependencies lineRegistry).1.mp rfl
  · exact (claim8_validate_dependencies cycleRegistry).2.1
      (fun hcon => hcon.2 "A"
        (Relation.TransGen.head
          (show "B" ∈ depsOf cycleRegistry "A" by decide)
          (Relation.TransGen.single
            (show "A" ∈ depsOf cycleRegistry "B" by decide))))

end Registry

end Spec2Proof